import Mathlib

/-!
webos-telephonyd: the oFono network-registration object and the modem manager

A shallow embedding of `src/ofono/ofononetworkregistration.c` and of
`drivers/ofono/ofonomanager.c`.

* C strings (`gchar *`) are `String`; a pointer that may be `NULL` is an `Option`.
* An object is a record; every function that writes through the pointer
  returns the new record.
* A call through a handler slot is recorded in a trace, together with the
  object as it is at the moment of the call (what a getter called from inside
  the handler would see).  Handlers are observers: they do not write to the
  object they are registered on.
* The calls the manager makes to its collaborators (modem creation, `ref` and
  `unref` of a modem, the modems-changed callback, `g_signal_connect`) are
  recorded in a trace in the same way.
* `g_message` and `g_critical` logging is not modelled.
-/

namespace Ofono

/-! ## Enumerations (declared in `ofononetworkregistration.h`) -/

/-- The values of `enum ofono_network_registration_mode` used by the source. -/
inductive ofono_network_registration_mode where
  | OFONO_NETWORK_REGISTRATION_MODE_AUTO
  | OFONO_NETWORK_REGISTRATION_MODE_AUTO_ONLY
  | OFONO_NETWORK_REGISTRATION_MODE_MANUAL
  | OFONO_NETWORK_REGISTRATION_MODE_UNKNOWN
  deriving DecidableEq, Repr

/-- The values of `enum ofono_network_status` used by the source. -/
inductive ofono_network_status where
  | OFONO_NETWORK_REGISTRATION_STATUS_UNREGISTERED
  | OFONO_NETWORK_REGISTRATION_STATUS_REGISTERED
  | OFONO_NETWORK_REGISTRATION_STATUS_SEARCHING
  | OFONO_NETWORK_REGISTRATION_STATUS_DENIED
  | OFONO_NETWORK_REGISTRATION_STATUS_UNKNOWN
  | OFONO_NETWORK_REGISTRATION_STATUS_ROAMING
  deriving DecidableEq, Repr

/-- The values of `enum ofono_network_technology` used by the source
(the spelling `TECHNOLOGOY` is the source's). -/
inductive ofono_network_technology where
  | OFONO_NETWORK_TECHNOLOGOY_GSM
  | OFONO_NETWORK_TECHNOLOGOY_EDGE
  | OFONO_NETWORK_TECHNOLOGOY_UMTS
  | OFONO_NETWORK_TECHNOLOGOY_HSPA
  | OFONO_NETWORK_TECHNOLOGOY_LTE
  | OFONO_NETWORK_TECHNOLOGOY_UNKNOWN
  deriving DecidableEq, Repr

open ofono_network_registration_mode ofono_network_status ofono_network_technology

/-- Modelled from the spec: the header `ofononetworkregistration.h`, which numbers
the enumerators, is not among the sources.  The spec says every cached field
defaults "to an unknown/zero sentinel until first observed", so the enumerator
whose value is 0 (what a zero-filled allocation holds) is the unknown mode. -/
def mode_of_zero : ofono_network_registration_mode :=
  OFONO_NETWORK_REGISTRATION_MODE_UNKNOWN

/-- Modelled from the spec: same missing header; the status enumerator whose
value is 0 is the unknown status. -/
def status_of_zero : ofono_network_status :=
  OFONO_NETWORK_REGISTRATION_STATUS_UNKNOWN

/-- Modelled from the spec: same missing header; the technology enumerator whose
value is 0 is the unknown technology. -/
def technology_of_zero : ofono_network_technology :=
  OFONO_NETWORK_TECHNOLOGOY_UNKNOWN

/-! ## GLib values -/

/-- A `GVariant` as far as `update_property` looks at it: its type and payload.
Numeric payloads are natural numbers; the typed readers reduce them to the
width of the type. -/
inductive GVariant where
  | string (s : String)
  | object_path (s : String)
  | boolean (b : Bool)
  | byte (n : Nat)
  | uint16 (n : Nat)
  | uint32 (n : Nat)
  deriving DecidableEq, Repr

/-- GLib `g_variant_dup_string(value, NULL)`: a copy of the string for a value of
a string type, `NULL` (after a critical warning) for any other type. -/
def g_variant_dup_string : GVariant → Option String
  | .string s => some s
  | .object_path s => some s
  | _ => none

/-- GLib `g_variant_get_byte`: the byte, or 0 for a value of another type. -/
def g_variant_get_byte : GVariant → Nat
  | .byte n => n % 2 ^ 8
  | _ => 0

/-- GLib `g_variant_get_uint16`: the number, or 0 for a value of another type. -/
def g_variant_get_uint16 : GVariant → Nat
  | .uint16 n => n % 2 ^ 16
  | _ => 0

/-- GLib `g_variant_get_uint32`: the number, or 0 for a value of another type. -/
def g_variant_get_uint32 : GVariant → Nat
  | .uint32 n => n % 2 ^ 32
  | _ => 0

/-! ## The parsers -/

/-- Source `parse_ofono_network_registration_mode` (lines 51-61). -/
def parse_ofono_network_registration_mode (mode : String) : ofono_network_registration_mode :=
  if mode = "auto" then
    OFONO_NETWORK_REGISTRATION_MODE_AUTO
  else if mode = "auto-only" then
    OFONO_NETWORK_REGISTRATION_MODE_AUTO_ONLY
  else if mode = "manual" then
    OFONO_NETWORK_REGISTRATION_MODE_MANUAL
  else
    OFONO_NETWORK_REGISTRATION_MODE_UNKNOWN

/-- Source `parse_ofono_network_status` (lines 63-79). -/
def parse_ofono_network_status (status : String) : ofono_network_status :=
  if status = "unregistered" then
    OFONO_NETWORK_REGISTRATION_STATUS_UNREGISTERED
  else if status = "registered" then
    OFONO_NETWORK_REGISTRATION_STATUS_REGISTERED
  else if status = "searching" then
    OFONO_NETWORK_REGISTRATION_STATUS_SEARCHING
  else if status = "denied" then
    OFONO_NETWORK_REGISTRATION_STATUS_DENIED
  else if status = "unknown" then
    OFONO_NETWORK_REGISTRATION_STATUS_UNKNOWN
  else if status = "roaming" then
    OFONO_NETWORK_REGISTRATION_STATUS_ROAMING
  else
    OFONO_NETWORK_REGISTRATION_STATUS_UNKNOWN

/-- Source `parse_ofono_network_technology` (lines 81-95). -/
def parse_ofono_network_technology (technology : String) : ofono_network_technology :=
  if technology = "gsm" then
    OFONO_NETWORK_TECHNOLOGOY_GSM
  else if technology = "edge" then
    OFONO_NETWORK_TECHNOLOGOY_EDGE
  else if technology = "umts" then
    OFONO_NETWORK_TECHNOLOGOY_UMTS
  else if technology = "hspa" then
    OFONO_NETWORK_TECHNOLOGOY_HSPA
  else if technology = "lte" then
    OFONO_NETWORK_TECHNOLOGOY_LTE
  else
    OFONO_NETWORK_TECHNOLOGOY_UNKNOWN

/-! ## The object -/

/-- A function pointer of type `ofono_property_changed_cb`, identified by its address. -/
abbrev ofono_property_changed_cb := Nat

/-- An untyped pointer (`void *`, `gpointer`), identified by its address. -/
abbrev gpointer := Nat

/-- Source `struct ofono_network_registration` (lines 30-49). `remote` and `base`
are the addresses of the proxy and of the property synchronizer. -/
structure ofono_network_registration where
  path : Option String
  remote : Option Nat
  base : Option Nat
  ref_count : Int
  mode : ofono_network_registration_mode
  status : ofono_network_status
  location_area_code : Nat
  cell_id : Nat
  mcc : Option String
  mnc : Option String
  technology : ofono_network_technology
  operator_name : Option String
  strength : Nat
  base_station : Option String
  status_changed_cb : Option ofono_property_changed_cb
  status_changed_data : gpointer
  strength_changed_cb : Option ofono_property_changed_cb
  strength_changed_data : gpointer
  deriving DecidableEq, Repr

/-- The two handler slots of the object. -/
inductive handler_slot where
  | status_changed
  | strength_changed
  deriving DecidableEq, Repr

/-- One call made through a handler slot: the slot, the function called, the
argument passed, and the object as it is when the call is made. -/
structure handler_call where
  slot : handler_slot
  cb : ofono_property_changed_cb
  data : gpointer
  netreg : ofono_network_registration
  deriving DecidableEq, Repr

/-- The statement `if (cb != NULL) cb(data);` of lines 107-108 and 124-125. -/
def call_handler (slot : handler_slot) (cb : Option ofono_property_changed_cb) (data : gpointer)
    (netreg : ofono_network_registration) : List handler_call :=
  match cb with
  | some f => [{ slot := slot, cb := f, data := data, netreg := netreg }]
  | none => []

/-- Source `update_property` (lines 97-129), with `user_data` the object.
The result is the object after the call and the handler calls made, or `none`
where the source passes the `NULL` that `g_variant_dup_string` returns for a
value that is not a string on to a parser, whose `g_str_equal` reads through it. -/
def update_property (name : String) (value : GVariant) (netreg : ofono_network_registration) :
    Option (ofono_network_registration × List handler_call) :=
  if name = "Mode" then
    match g_variant_dup_string value with
    | none => none
    | some s => some ({ netreg with mode := parse_ofono_network_registration_mode s }, [])
  else if name = "Status" then
    match g_variant_dup_string value with
    | none => none
    | some s =>
      let netreg := { netreg with status := parse_ofono_network_status s }
      some (netreg, call_handler .status_changed netreg.status_changed_cb netreg.status_changed_data netreg)
  else if name = "LocationAreaCode" then
    some ({ netreg with location_area_code := g_variant_get_uint16 value }, [])
  else if name = "CellId" then
    some ({ netreg with cell_id := g_variant_get_uint32 value }, [])
  else if name = "MobileCountryCode" then
    some ({ netreg with mcc := g_variant_dup_string value }, [])
  else if name = "MobileNetworkCode" then
    some ({ netreg with mnc := g_variant_dup_string value }, [])
  else if name = "Technology" then
    match g_variant_dup_string value with
    | none => none
    | some s => some ({ netreg with technology := parse_ofono_network_technology s }, [])
  else if name = "Name" then
    some ({ netreg with operator_name := g_variant_dup_string value }, [])
  else if name = "Strength" then
    let netreg := { netreg with strength := g_variant_get_byte value }
    some (netreg, call_handler .strength_changed netreg.strength_changed_cb netreg.strength_changed_data netreg)
  else if name = "BaseStation" then
    some ({ netreg with base_station := g_variant_dup_string value }, [])
  else
    some (netreg, [])

/-- The calls of `update_property` that the property synchronizer makes for a
list of `(name, value)` pairs, in the order of the list (a bulk fetch, or a
run of notifications); the handler calls are collected in order. -/
def apply_updates : List (String × GVariant) → ofono_network_registration →
    Option (ofono_network_registration × List handler_call)
  | [], netreg => some (netreg, [])
  | (name, value) :: rest, netreg =>
    match update_property name value netreg with
    | none => none
    | some (netreg1, calls1) =>
      match apply_updates rest netreg1 with
      | none => none
      | some (netreg2, calls2) => some (netreg2, calls1 ++ calls2)

/-- What the environment answers while `ofono_network_registration_create` runs. -/
structure create_env where
  /-- whether `g_try_new0` returns memory -/
  alloc : Bool
  /-- the proxy returned by `..._proxy_new_for_bus_sync`, `none` when it sets `error` -/
  proxy : Option Nat
  /-- the pointer returned by `ofono_base_create` -/
  base : Option Nat
  deriving DecidableEq, Repr

/-- The record `g_try_new0(struct ofono_network_registration, 1)` returns when
it succeeds: every field is zero (null pointers, zero numbers, the enumerators
whose value is 0). -/
def g_try_new0_netreg : ofono_network_registration :=
  { path := none
    remote := none
    base := none
    ref_count := 0
    mode := mode_of_zero
    status := status_of_zero
    location_area_code := 0
    cell_id := 0
    mcc := none
    mnc := none
    technology := technology_of_zero
    operator_name := none
    strength := 0
    base_station := none
    status_changed_cb := none
    status_changed_data := 0
    strength_changed_cb := none
    strength_changed_data := 0 }

/-- Source `ofono_network_registration_create` (lines 139-162). Only `remote`,
`path` and `base` are assigned after the zero-filling allocation.
`none` stands for "no instance": the `NULL` of line 146, and the error branch of
lines 150-155 (where GLib's `g_error` ends the process unless the log handler
returns, in which case `NULL` is returned). -/
def ofono_network_registration_create (env : create_env) (path : String) :
    Option ofono_network_registration :=
  if env.alloc = false then
    none
  else
    match env.proxy with
    | none => none
    | some remote =>
      let netreg := g_try_new0_netreg
      let netreg := { netreg with remote := some remote }
      let netreg := { netreg with path := some path }
      let netreg := { netreg with base := env.base }
      some netreg

/-- A C `int` holding the mathematical value `x` (two's complement, 32 bits). -/
def wrap_int (x : Int) : Int :=
  (x + 2 ^ 31) % 2 ^ 32 - 2 ^ 31

/-- Source `ofono_network_registration_ref` (lines 164-170). -/
def ofono_network_registration_ref (netreg : Option ofono_network_registration) :
    Option ofono_network_registration :=
  match netreg with
  | none => none
  | some n => some { n with ref_count := wrap_int (n.ref_count + 1) }

/-- A step of tearing the object down. -/
inductive teardown_step where
  | g_object_unref (remote : Nat)
  | g_free_netreg
  deriving DecidableEq, Repr

/-- Source `ofono_network_registration_free` (lines 183-192): the releases it
performs, in order. -/
def ofono_network_registration_free (netreg : Option ofono_network_registration) :
    List teardown_step :=
  match netreg with
  | none => []
  | some n =>
    (match n.remote with
      | some r => [teardown_step.g_object_unref r]
      | none => []) ++ [teardown_step.g_free_netreg]

/-- Source `ofono_network_registration_unref` (lines 172-181): the object that
remains (`none` once it has been freed, or for `NULL`) and the releases done. -/
def ofono_network_registration_unref (netreg : Option ofono_network_registration) :
    Option ofono_network_registration × List teardown_step :=
  match netreg with
  | none => (none, [])
  | some n =>
    let n1 := { n with ref_count := wrap_int (n.ref_count - 1) }
    if n1.ref_count ≠ 0 then
      (some n1, [])
    else
      (none, ofono_network_registration_free (some n1))

/-- Source `ofono_network_registration_get_path` (lines 194-200). -/
def ofono_network_registration_get_path (netreg : Option ofono_network_registration) :
    Option String :=
  match netreg with
  | none => none
  | some n => n.path

/-- Source `ofono_network_registration_register_status_changed_handler` (lines 202-209). -/
def ofono_network_registration_register_status_changed_handler
    (netreg : Option ofono_network_registration) (cb : Option ofono_property_changed_cb)
    (data : gpointer) : Option ofono_network_registration :=
  match netreg with
  | none => none
  | some n => some { n with status_changed_cb := cb, status_changed_data := data }

/-- Source `ofono_network_registration_register_strength_changed_handler` (lines 211-218). -/
def ofono_network_registration_register_strength_changed_handler
    (netreg : Option ofono_network_registration) (cb : Option ofono_property_changed_cb)
    (data : gpointer) : Option ofono_network_registration :=
  match netreg with
  | none => none
  | some n => some { n with strength_changed_cb := cb, strength_changed_data := data }

/-- Source `ofono_network_registration_get_mode` (lines 220-226). -/
def ofono_network_registration_get_mode (netreg : Option ofono_network_registration) :
    ofono_network_registration_mode :=
  match netreg with
  | none => OFONO_NETWORK_REGISTRATION_MODE_UNKNOWN
  | some n => n.mode

/-- Source `ofono_network_registration_get_status` (lines 228-234). -/
def ofono_network_registration_get_status (netreg : Option ofono_network_registration) :
    ofono_network_status :=
  match netreg with
  | none => OFONO_NETWORK_REGISTRATION_STATUS_UNKNOWN
  | some n => n.status

/-- Source `ofono_network_registration_get_strength` (lines 236-242). -/
def ofono_network_registration_get_strength (netreg : Option ofono_network_registration) : Nat :=
  match netreg with
  | none => 0
  | some n => n.strength

/-- Source `ofono_network_registration_get_location_area_code` (lines 244-250). -/
def ofono_network_registration_get_location_area_code
    (netreg : Option ofono_network_registration) : Nat :=
  match netreg with
  | none => 0
  | some n => n.location_area_code

/-- Source `ofono_network_registration_get_cell_id` (lines 252-258). -/
def ofono_network_registration_get_cell_id (netreg : Option ofono_network_registration) : Nat :=
  match netreg with
  | none => 0
  | some n => n.cell_id

/-- Source `ofono_network_registration_get_mcc` (lines 260-266). -/
def ofono_network_registration_get_mcc (netreg : Option ofono_network_registration) :
    Option String :=
  match netreg with
  | none => none
  | some n => n.mcc

/-- Source `ofono_network_registration_get_mnc` (lines 268-274). -/
def ofono_network_registration_get_mnc (netreg : Option ofono_network_registration) :
    Option String :=
  match netreg with
  | none => none
  | some n => n.mnc

/-- Source `ofono_network_registration_get_technology` (lines 276-282). -/
def ofono_network_registration_get_technology (netreg : Option ofono_network_registration) :
    ofono_network_technology :=
  match netreg with
  | none => OFONO_NETWORK_TECHNOLOGOY_UNKNOWN
  | some n => n.technology

/-- Source `ofono_network_registration_get_operator_name` (lines 284-290). -/
def ofono_network_registration_get_operator_name (netreg : Option ofono_network_registration) :
    Option String :=
  match netreg with
  | none => none
  | some n => n.operator_name

/-- Source `ofono_network_registration_get_base_station` (lines 292-298). -/
def ofono_network_registration_get_base_station (netreg : Option ofono_network_registration) :
    Option String :=
  match netreg with
  | none => none
  | some n => n.base_station


/-! ## Vocabulary for statements about all properties at once -/

/-- The ten property names `update_property` compares `name` with (lines 103-127). -/
def recognized_properties : List String :=
  ["Mode", "Status", "LocationAreaCode", "CellId", "MobileCountryCode", "MobileNetworkCode",
   "Technology", "Name", "Strength", "BaseStation"]

/-- A value as one of the getters returns it. -/
inductive property_value where
  | mode (m : ofono_network_registration_mode)
  | status (s : ofono_network_status)
  | technology (t : ofono_network_technology)
  | number (n : Nat)
  | text (s : Option String)
  deriving DecidableEq, Repr

/-- The getter that belongs to a property name (lines 220-298), applied to an
object; `none` for a name that has no getter. -/
def getter_of (name : String) (netreg : Option ofono_network_registration) :
    Option property_value :=
  if name = "Mode" then some (.mode (ofono_network_registration_get_mode netreg))
  else if name = "Status" then some (.status (ofono_network_registration_get_status netreg))
  else if name = "LocationAreaCode" then
    some (.number (ofono_network_registration_get_location_area_code netreg))
  else if name = "CellId" then some (.number (ofono_network_registration_get_cell_id netreg))
  else if name = "MobileCountryCode" then some (.text (ofono_network_registration_get_mcc netreg))
  else if name = "MobileNetworkCode" then some (.text (ofono_network_registration_get_mnc netreg))
  else if name = "Technology" then
    some (.technology (ofono_network_registration_get_technology netreg))
  else if name = "Name" then
    some (.text (ofono_network_registration_get_operator_name netreg))
  else if name = "Strength" then some (.number (ofono_network_registration_get_strength netreg))
  else if name = "BaseStation" then
    some (.text (ofono_network_registration_get_base_station netreg))
  else none

/-- The parsed form of a value of the property's type, as the property table of
the spec gives the types: the parsed enum of a string for Mode, Status and
Technology, the number for LocationAreaCode (16 bits), CellId (32 bits) and
Strength (8 bits), the string for the four string properties. `none` for a
value that is not of the property's type, and for a name that is not recognized. -/
def parsed_value (name : String) (value : GVariant) : Option property_value :=
  if name = "Mode" then
    match value with
    | .string s => some (.mode (parse_ofono_network_registration_mode s))
    | _ => none
  else if name = "Status" then
    match value with
    | .string s => some (.status (parse_ofono_network_status s))
    | _ => none
  else if name = "Technology" then
    match value with
    | .string s => some (.technology (parse_ofono_network_technology s))
    | _ => none
  else if name = "LocationAreaCode" then
    match value with
    | .uint16 n => if n < 2 ^ 16 then some (.number n) else none
    | _ => none
  else if name = "CellId" then
    match value with
    | .uint32 n => if n < 2 ^ 32 then some (.number n) else none
    | _ => none
  else if name = "Strength" then
    match value with
    | .byte n => if n < 2 ^ 8 then some (.number n) else none
    | _ => none
  else if name = "MobileCountryCode" ∨ name = "MobileNetworkCode" ∨ name = "Name"
      ∨ name = "BaseStation" then
    match value with
    | .string s => some (.text (some s))
    | _ => none
  else none

/-- The sentinel of a property: the unknown variant, 0, or the absent string. -/
def sentinel_of (name : String) : Option property_value :=
  if name = "Mode" then some (.mode OFONO_NETWORK_REGISTRATION_MODE_UNKNOWN)
  else if name = "Status" then some (.status OFONO_NETWORK_REGISTRATION_STATUS_UNKNOWN)
  else if name = "Technology" then some (.technology OFONO_NETWORK_TECHNOLOGOY_UNKNOWN)
  else if name = "LocationAreaCode" ∨ name = "CellId" ∨ name = "Strength" then some (.number 0)
  else if name = "MobileCountryCode" ∨ name = "MobileNetworkCode" ∨ name = "Name"
      ∨ name = "BaseStation" then some (.text none)
  else none

/-- An update whose value is of the type of the property it names; an update
with a name that is not recognized may carry any value. -/
def well_typed (update : String × GVariant) : Prop :=
  update.1 ∈ recognized_properties → (parsed_value update.1 update.2).isSome = true

instance (update : String × GVariant) : Decidable (well_typed update) := by
  unfold well_typed
  infer_instance

/-- The value of the last update named `name` in a list of updates, if there is one. -/
def last_update (name : String) : List (String × GVariant) → Option GVariant
  | [] => none
  | (n, v) :: rest =>
    match last_update name rest with
    | some w => some w
    | none => if n = name then some v else none

/-- What `update_property` stores for a property, in the form its getter
returns it: the right-hand sides of the assignments of lines 104-128. A value
of another type than the reader expects is read as GLib reads it (0 for a
number, `NULL` for a string). `none` where the parser would be handed `NULL`,
and for a name that is not recognized. -/
def read_value (name : String) (value : GVariant) : Option property_value :=
  if name = "Mode" then
    (g_variant_dup_string value).map (fun s => .mode (parse_ofono_network_registration_mode s))
  else if name = "Status" then
    (g_variant_dup_string value).map (fun s => .status (parse_ofono_network_status s))
  else if name = "LocationAreaCode" then some (.number (g_variant_get_uint16 value))
  else if name = "CellId" then some (.number (g_variant_get_uint32 value))
  else if name = "MobileCountryCode" then some (.text (g_variant_dup_string value))
  else if name = "MobileNetworkCode" then some (.text (g_variant_dup_string value))
  else if name = "Technology" then
    (g_variant_dup_string value).map (fun s => .technology (parse_ofono_network_technology s))
  else if name = "Name" then some (.text (g_variant_dup_string value))
  else if name = "Strength" then some (.number (g_variant_get_byte value))
  else if name = "BaseStation" then some (.text (g_variant_dup_string value))
  else none

/-- An update that hands its parser a string: when it is named Mode, Status or
Technology, `g_variant_dup_string` returns a string for its value. -/
def parser_gets_string (update : String × GVariant) : Prop :=
  update.1 = "Mode" ∨ update.1 = "Status" ∨ update.1 = "Technology" →
    (g_variant_dup_string update.2).isSome = true

instance (update : String × GVariant) : Decidable (parser_gets_string update) := by
  unfold parser_gets_string
  infer_instance

/-! ## Sequences of `ref` and `unref` calls -/

/-- A call of `ofono_network_registration_ref` or of
`ofono_network_registration_unref` on an object. -/
inductive ref_call where
  | ref
  | unref
  deriving DecidableEq, Repr

/-- The calls of a list made in order on one object, up to the call that tears
it down: the number of calls made when the object is torn down together with
the releases done then, or `none` when the object outlives the whole list. -/
def teardown_at : List ref_call → ofono_network_registration → Option (Nat × List teardown_step)
  | [], _ => none
  | .ref :: rest, netreg =>
    match ofono_network_registration_ref (some netreg) with
    | none => none
    | some netreg1 => (teardown_at rest netreg1).map (fun r => (r.1 + 1, r.2))
  | .unref :: rest, netreg =>
    match ofono_network_registration_unref (some netreg) with
    | (none, steps) => some (1, steps)
    | (some netreg1, _) => (teardown_at rest netreg1).map (fun r => (r.1 + 1, r.2))

/-- A list of `ref` and `unref` calls on an object with count `c` that, up to
the call that tears the object down, never takes the count beyond the largest
`int`: after every prefix that no teardown precedes, the count, `c` plus the
`ref` calls minus the `unref` calls of the prefix, is below 2^31. -/
def count_in_range (c : Int) (ops : List ref_call) : Prop :=
  ∀ j, j ≤ ops.length →
    (∀ i, i < j →
      ((ops.take i).count ref_call.unref : Int) ≠ ((ops.take i).count ref_call.ref : Int) + c) →
    c + ((ops.take j).count ref_call.ref : Int) - ((ops.take j).count ref_call.unref : Int)
      < 2 ^ 31

instance (c : Int) (ops : List ref_call) : Decidable (count_in_range c ops) := by
  unfold count_in_range
  infer_instance

/-! ## The modem manager (`drivers/ofono/ofonomanager.c`) -/

/-- Modelled from the spec: `struct ofono_modem` (`ofonomodem.c` and its header
are not among the sources). The spec's modem entry is "identified by remote
path (string)". A pointer to a modem is represented by the address of the
object together with the path the object was created for; two pointers are
equal when both agree. -/
structure ofono_modem where
  addr : Nat
  path : String
  deriving DecidableEq, Repr

/-- Modelled from the spec: `ofono_modem_create(path)`, which is not among the
sources. The spec has a discovered path "turned into a Modem (its path
extracted, a Domain-Object-bearing Modem constructed)"; `addr` is the address
of the new object. Construction is taken to succeed. -/
def ofono_modem_create (addr : Nat) (path : String) : ofono_modem :=
  { addr := addr, path := path }

/-- Modelled from the spec: `ofono_modem_get_path(modem)`, which is not among the
sources: the path the modem entry is identified by. -/
def ofono_modem_get_path (modem : ofono_modem) : String :=
  modem.path

/-- The two functions `get_modems_cb` connects to signals of the proxy. -/
inductive signal_callback where
  | modem_added_cb
  | modem_removed_cb
  deriving DecidableEq, Repr

/-- A call the manager makes to one of its collaborators. The calls
`ofono_modem_ref` and `ofono_modem_unref` act on the modem object, outside the
manager, and are recorded only. A call of the modems-changed callback and a
`g_signal_connect` are recorded with the collection as it is when they are made. -/
inductive manager_call where
  | call_get_modems (remote : Nat)
  | modem_create (modem : ofono_modem)
  | modem_ref (modem : ofono_modem)
  | modem_unref (modem : ofono_modem)
  | modems_changed (cb : Nat) (data : gpointer) (modems : List ofono_modem)
  | signal_connect (signal : String) (handler : signal_callback) (modems : List ofono_modem)
  deriving DecidableEq, Repr

/-- Source `struct ofono_manager` (lines 30-37). A signal handler id of 0 is the
id of no connection. -/
structure ofono_manager where
  remote : Option Nat
  modems : List ofono_modem
  modems_changed_cb : Option Nat
  modems_changed_data : gpointer
  modem_added_signal : Nat
  modem_removed_signal : Nat
  deriving DecidableEq, Repr

/-- GLib `g_list_append(list, data)`: the list with `data` added at the end. -/
def g_list_append (list : List ofono_modem) (data : ofono_modem) : List ofono_modem :=
  list ++ [data]

/-- GLib `g_list_remove(list, data)`: the list without the first element that
is `data`; the list itself when there is none. -/
def g_list_remove (list : List ofono_modem) (data : ofono_modem) : List ofono_modem :=
  list.erase data

/-- Source `notify_modems_changed` (lines 39-43). -/
def notify_modems_changed (manager : ofono_manager) : List manager_call :=
  match manager.modems_changed_cb with
  | some cb => [manager_call.modems_changed cb manager.modems_changed_data manager.modems]
  | none => []

/-- Source `modem_added_cb` (lines 45-56); `addr` is the address of the modem
that `ofono_modem_create` returns. The properties are not looked at. -/
def modem_added_cb (addr : Nat) (path : String) (properties : List (String × GVariant))
    (manager : ofono_manager) : ofono_manager × List manager_call :=
  let _ := properties
  let modem := ofono_modem_create addr path
  let manager := { manager with modems := g_list_append manager.modems modem }
  (manager,
    [manager_call.modem_create modem, manager_call.modem_ref modem]
      ++ notify_modems_changed manager)

/-- Source `modem_removed_cb` (lines 58-81). The loop of lines 66-74 stops at
the first entry whose path is `path`. -/
def modem_removed_cb (path : String) (manager : ofono_manager) :
    ofono_manager × List manager_call :=
  match manager.modems.find? (fun modem => ofono_modem_get_path modem = path) with
  | some modem =>
    let manager := { manager with modems := g_list_remove manager.modems modem }
    (manager, [manager_call.modem_unref modem] ++ notify_modems_changed manager)
  | none => (manager, [])

/-- What the environment answers while `get_modems_cb` runs: the address of the
modem created in round `n` of the loop, and the handler ids that the two
`g_signal_connect` calls return. -/
structure completion_env where
  modem_addr : Nat → Nat
  added_id : Nat
  removed_id : Nat

/-- The loop of `get_modems_cb` (lines 101-108) from round `n` on, over the
children that are left; a child is the pair of an object path and a property
dictionary. -/
def get_modems_loop (env : completion_env) :
    Nat → List (String × List (String × GVariant)) → ofono_manager →
      ofono_manager × List manager_call
  | _, [], manager => (manager, [])
  | n, child :: rest, manager =>
    let path := child.1
    let modem := ofono_modem_create (env.modem_addr n) path
    let manager := { manager with modems := g_list_append manager.modems modem }
    let r := get_modems_loop env (n + 1) rest manager
    (r.1, manager_call.modem_create modem :: r.2)

/-- Source `get_modems_cb` (lines 83-118). `result` is what
`ofono_interface_manager_call_get_modems_finish` hands back: the enumerated
children, or `none` when it reports failure. -/
def get_modems_cb (env : completion_env)
    (result : Option (List (String × List (String × GVariant)))) (manager : ofono_manager) :
    ofono_manager × List manager_call :=
  let r :=
    match result with
    | none => (manager, [])
    | some modems =>
      let r := get_modems_loop env 0 modems manager
      (r.1, r.2 ++ notify_modems_changed r.1)
  let manager := r.1
  let connect_added :=
    manager_call.signal_connect "modem-added" signal_callback.modem_added_cb manager.modems
  let manager := { manager with modem_added_signal := env.added_id }
  let connect_removed :=
    manager_call.signal_connect "modem-removed" signal_callback.modem_removed_cb manager.modems
  let manager := { manager with modem_removed_signal := env.removed_id }
  (manager, r.2 ++ [connect_added, connect_removed])

/-- Source `ofono_manager_create` (lines 120-143): the manager, `none` for `NULL`,
and the calls made. `alloc` tells whether `g_try_new0` returns memory, `proxy`
is the proxy for "/" or `none` when `error` is set. -/
def ofono_manager_create (alloc : Bool) (proxy : Option Nat) :
    Option ofono_manager × List manager_call :=
  if alloc = false then
    (none, [])
  else
    match proxy with
    | none => (none, [])
    | some remote =>
      ( some { remote := some remote
               modems := []
               modems_changed_cb := none
               modems_changed_data := 0
               modem_added_signal := 0
               modem_removed_signal := 0 },
        [manager_call.call_get_modems remote] )

/-- Source `ofono_manager_get_modems` (lines 161-167); the `NULL` list is the
empty list. -/
def ofono_manager_get_modems (manager : Option ofono_manager) : List ofono_modem :=
  match manager with
  | none => []
  | some m => m.modems

/-- Source `ofono_manager_set_modems_changed_callback` (lines 169-176). -/
def ofono_manager_set_modems_changed_callback (manager : Option ofono_manager)
    (cb : Option Nat) (user_data : gpointer) : Option ofono_manager :=
  match manager with
  | none => none
  | some m => some { m with modems_changed_cb := cb, modems_changed_data := user_data }

/-! ## Events delivered to the manager -/

/-- What the event loop delivers to a manager: the completion of the enumeration
call, a "modem-added" signal, a "modem-removed" signal. -/
inductive manager_event where
  | enumeration_completed (env : completion_env)
      (result : Option (List (String × List (String × GVariant))))
  | added (addr : Nat) (path : String) (properties : List (String × GVariant))
  | removed (path : String)

/-- The function the event loop runs for an event. -/
def handle_event (event : manager_event) (manager : ofono_manager) :
    ofono_manager × List manager_call :=
  match event with
  | .enumeration_completed env result => get_modems_cb env result manager
  | .added addr path properties => modem_added_cb addr path properties manager
  | .removed path => modem_removed_cb path manager

/-- The events of a list handled in order; the calls made are collected in order. -/
def handle_events : List manager_event → ofono_manager → ofono_manager × List manager_call
  | [], manager => (manager, [])
  | event :: rest, manager =>
    let r1 := handle_event event manager
    let r2 := handle_events rest r1.1
    (r2.1, r1.2 ++ r2.2)

/-- The paths of the entries of a collection, in order. -/
def modem_paths (modems : List ofono_modem) : List String :=
  modems.map ofono_modem_get_path

/-- An event that cannot bring a second entry for a path into the collection of
the manager it is delivered to: an enumeration that lists pairwise distinct
paths none of which is present, an "added" for a path that is not present, any
failed enumeration, any "removed". -/
def adds_no_duplicate (event : manager_event) (manager : ofono_manager) : Prop :=
  match event with
  | .enumeration_completed _ (some children) =>
    (children.map Prod.fst).Nodup ∧ ∀ p ∈ children.map Prod.fst, p ∉ modem_paths manager.modems
  | .enumeration_completed _ none => True
  | .added _ path _ => path ∉ modem_paths manager.modems
  | .removed _ => True

instance (event : manager_event) (manager : ofono_manager) :
    Decidable (adds_no_duplicate event manager) := by
  unfold adds_no_duplicate
  split <;> infer_instance

/-- A list of events each of which, at the time it is handled, adds no duplicate. -/
def non_duplicating : List manager_event → ofono_manager → Prop
  | [], _ => True
  | event :: rest, manager =>
    adds_no_duplicate event manager ∧ non_duplicating rest (handle_event event manager).1

/-- Whether a list of events is non-duplicating can be computed. -/
def non_duplicating_decidable :
    (events : List manager_event) → (manager : ofono_manager) →
      Decidable (non_duplicating events manager)
  | [], _ => isTrue trivial
  | event :: rest, manager =>
    have := non_duplicating_decidable rest (handle_event event manager).1
    inferInstanceAs (Decidable (adds_no_duplicate event manager
      ∧ non_duplicating rest (handle_event event manager).1))

instance (events : List manager_event) (manager : ofono_manager) :
    Decidable (non_duplicating events manager) :=
  non_duplicating_decidable events manager

/-- The references the manager has taken on a modem, net of those it has
released, in a list of calls: the `ofono_modem_ref` calls on the modem minus
the `ofono_modem_unref` calls on it. -/
def net_references (modem : ofono_modem) (calls : List manager_call) : Int :=
  (calls.count (manager_call.modem_ref modem) : Int)
    - (calls.count (manager_call.modem_unref modem) : Int)

/-- Whether a call is a call of the modems-changed callback. -/
def is_modems_changed : manager_call → Bool
  | .modems_changed _ _ _ => true
  | _ => false

/-- Whether a call is a `g_signal_connect`. -/
def is_signal_connect : manager_call → Bool
  | .signal_connect _ _ _ => true
  | _ => false

/-! ## Theorems -/

/-- C1: round trip through `update_property`. For each of the ten recognized
property names, any object and any value of the property's type, the update is
carried out and the property's getter then returns the parsed form of the value:
the parsed enum for Mode, Status and Technology, the number itself for
LocationAreaCode (16 bits), CellId (32 bits) and Strength (8 bits), and the
string itself for MobileCountryCode, MobileNetworkCode, Name and BaseStation. -/
theorem update_property_round_trip (netreg : ofono_network_registration) (s : String)
    (lac cid str : Nat) (hlac : lac < 2 ^ 16) (hcid : cid < 2 ^ 32) (hstr : str < 2 ^ 8) :
    (update_property "Mode" (.string s) netreg).map
        (fun r => ofono_network_registration_get_mode (some r.1))
      = some (parse_ofono_network_registration_mode s)
    ∧ (update_property "Status" (.string s) netreg).map
        (fun r => ofono_network_registration_get_status (some r.1))
      = some (parse_ofono_network_status s)
    ∧ (update_property "LocationAreaCode" (.uint16 lac) netreg).map
        (fun r => ofono_network_registration_get_location_area_code (some r.1))
      = some lac
    ∧ (update_property "CellId" (.uint32 cid) netreg).map
        (fun r => ofono_network_registration_get_cell_id (some r.1))
      = some cid
    ∧ (update_property "MobileCountryCode" (.string s) netreg).map
        (fun r => ofono_network_registration_get_mcc (some r.1))
      = some (some s)
    ∧ (update_property "MobileNetworkCode" (.string s) netreg).map
        (fun r => ofono_network_registration_get_mnc (some r.1))
      = some (some s)
    ∧ (update_property "Technology" (.string s) netreg).map
        (fun r => ofono_network_registration_get_technology (some r.1))
      = some (parse_ofono_network_technology s)
    ∧ (update_property "Name" (.string s) netreg).map
        (fun r => ofono_network_registration_get_operator_name (some r.1))
      = some (some s)
    ∧ (update_property "Strength" (.byte str) netreg).map
        (fun r => ofono_network_registration_get_strength (some r.1))
      = some str
    ∧ (update_property "BaseStation" (.string s) netreg).map
        (fun r => ofono_network_registration_get_base_station (some r.1))
      = some (some s) := by
  refine ⟨?_, ?_, ?_, ?_, ?_, ?_, ?_, ?_, ?_, ?_⟩
  · simp [update_property, g_variant_dup_string, ofono_network_registration_get_mode]
  · simp [update_property, g_variant_dup_string, ofono_network_registration_get_status]
  · simp [update_property, g_variant_get_uint16, ofono_network_registration_get_location_area_code]
    exact hlac
  · simp [update_property, g_variant_get_uint32, ofono_network_registration_get_cell_id]
    exact hcid
  · simp [update_property, g_variant_dup_string, ofono_network_registration_get_mcc]
  · simp [update_property, g_variant_dup_string, ofono_network_registration_get_mnc]
  · simp [update_property, g_variant_dup_string, ofono_network_registration_get_technology]
  · simp [update_property, g_variant_dup_string, ofono_network_registration_get_operator_name]
  · simp [update_property, g_variant_get_byte, ofono_network_registration_get_strength]
    exact hstr
  · simp [update_property, g_variant_dup_string, ofono_network_registration_get_base_station]

/-- C1 witness: the round trip at the zero-filled object with the values
"registered", 4660, 305419896 and 80. -/
theorem update_property_round_trip_witness :
    (4660 < 2 ^ 16 ∧ 305419896 < 2 ^ 32 ∧ 80 < 2 ^ 8)
    ∧ (update_property "Status" (.string "registered") g_try_new0_netreg).map
        (fun r => ofono_network_registration_get_status (some r.1))
      = some (parse_ofono_network_status "registered")
    ∧ (update_property "LocationAreaCode" (.uint16 4660) g_try_new0_netreg).map
        (fun r => ofono_network_registration_get_location_area_code (some r.1))
      = some 4660
    ∧ (update_property "CellId" (.uint32 305419896) g_try_new0_netreg).map
        (fun r => ofono_network_registration_get_cell_id (some r.1))
      = some 305419896
    ∧ (update_property "Strength" (.byte 80) g_try_new0_netreg).map
        (fun r => ofono_network_registration_get_strength (some r.1))
      = some 80 :=
  have h := update_property_round_trip g_try_new0_netreg "registered" 4660 305419896 80
    (by decide) (by decide) (by decide)
  ⟨⟨by decide, by decide, by decide⟩, h.2.1, h.2.2.1, h.2.2.2.1, h.2.2.2.2.2.2.2.2.1⟩

/-- C2: a string that is not exactly one of the recognized words parses to the
unknown variant of its field. Every parser is a total function, so it never
fails: outside auto, auto-only, manual the mode is MODE_UNKNOWN; outside
unregistered, registered, searching, denied, roaming the status is
STATUS_UNKNOWN; outside gsm, edge, umts, hspa, lte the technology is
TECHNOLOGOY_UNKNOWN. -/
theorem parse_unrecognized_is_unknown (s : String) :
    (s ∉ ["auto", "auto-only", "manual"] →
      parse_ofono_network_registration_mode s = OFONO_NETWORK_REGISTRATION_MODE_UNKNOWN)
    ∧ (s ∉ ["unregistered", "registered", "searching", "denied", "roaming"] →
      parse_ofono_network_status s = OFONO_NETWORK_REGISTRATION_STATUS_UNKNOWN)
    ∧ (s ∉ ["gsm", "edge", "umts", "hspa", "lte"] →
      parse_ofono_network_technology s = OFONO_NETWORK_TECHNOLOGOY_UNKNOWN) := by
  refine ⟨fun h => ?_, fun h => ?_, fun h => ?_⟩
  · simp only [List.mem_cons, List.mem_singleton, List.not_mem_nil, or_false, not_or] at h
    simp [parse_ofono_network_registration_mode, h.1, h.2.1, h.2.2]
  · simp only [List.mem_cons, List.mem_singleton, List.not_mem_nil, or_false, not_or] at h
    simp [parse_ofono_network_status, h.1, h.2.1, h.2.2.1, h.2.2.2.1, h.2.2.2.2]
  · simp only [List.mem_cons, List.mem_singleton, List.not_mem_nil, or_false, not_or] at h
    simp [parse_ofono_network_technology, h.1, h.2.1, h.2.2.1, h.2.2.2.1, h.2.2.2.2]

/-- C2 witness: "LTE", "Auto" and the empty string are outside every vocabulary
and parse to unknown in all three parsers. -/
theorem parse_unrecognized_is_unknown_witness :
    (parse_ofono_network_registration_mode "LTE" = OFONO_NETWORK_REGISTRATION_MODE_UNKNOWN
      ∧ parse_ofono_network_status "LTE" = OFONO_NETWORK_REGISTRATION_STATUS_UNKNOWN
      ∧ parse_ofono_network_technology "LTE" = OFONO_NETWORK_TECHNOLOGOY_UNKNOWN)
    ∧ (parse_ofono_network_registration_mode "Auto" = OFONO_NETWORK_REGISTRATION_MODE_UNKNOWN
      ∧ parse_ofono_network_status "Auto" = OFONO_NETWORK_REGISTRATION_STATUS_UNKNOWN
      ∧ parse_ofono_network_technology "Auto" = OFONO_NETWORK_TECHNOLOGOY_UNKNOWN)
    ∧ (parse_ofono_network_registration_mode "" = OFONO_NETWORK_REGISTRATION_MODE_UNKNOWN
      ∧ parse_ofono_network_status "" = OFONO_NETWORK_REGISTRATION_STATUS_UNKNOWN
      ∧ parse_ofono_network_technology "" = OFONO_NETWORK_TECHNOLOGOY_UNKNOWN) :=
  ⟨⟨(parse_unrecognized_is_unknown "LTE").1 (by decide),
    (parse_unrecognized_is_unknown "LTE").2.1 (by decide),
    (parse_unrecognized_is_unknown "LTE").2.2 (by decide)⟩,
   ⟨(parse_unrecognized_is_unknown "Auto").1 (by decide),
    (parse_unrecognized_is_unknown "Auto").2.1 (by decide),
    (parse_unrecognized_is_unknown "Auto").2.2 (by decide)⟩,
   ⟨(parse_unrecognized_is_unknown "").1 (by decide),
    (parse_unrecognized_is_unknown "").2.1 (by decide),
    (parse_unrecognized_is_unknown "").2.2 (by decide)⟩⟩

/-- C3: the three parsers implement the vocabulary table. Mode maps auto,
auto-only, manual to AUTO, AUTO_ONLY, MANUAL; Status maps unregistered,
registered, searching, denied, unknown, roaming to UNREGISTERED, REGISTERED,
SEARCHING, DENIED, UNKNOWN, ROAMING; Technology maps gsm, edge, umts, hspa, lte
to GSM, EDGE, UMTS, HSPA, LTE. Within each parser two different recognized words
other than "unknown" never map to the same variant, and no recognized word
other than "unknown" maps to the unknown variant. -/
theorem parsers_implement_vocabulary :
    (parse_ofono_network_registration_mode "auto" = OFONO_NETWORK_REGISTRATION_MODE_AUTO
      ∧ parse_ofono_network_registration_mode "auto-only"
          = OFONO_NETWORK_REGISTRATION_MODE_AUTO_ONLY
      ∧ parse_ofono_network_registration_mode "manual" = OFONO_NETWORK_REGISTRATION_MODE_MANUAL)
    ∧ (parse_ofono_network_status "unregistered" = OFONO_NETWORK_REGISTRATION_STATUS_UNREGISTERED
      ∧ parse_ofono_network_status "registered" = OFONO_NETWORK_REGISTRATION_STATUS_REGISTERED
      ∧ parse_ofono_network_status "searching" = OFONO_NETWORK_REGISTRATION_STATUS_SEARCHING
      ∧ parse_ofono_network_status "denied" = OFONO_NETWORK_REGISTRATION_STATUS_DENIED
      ∧ parse_ofono_network_status "unknown" = OFONO_NETWORK_REGISTRATION_STATUS_UNKNOWN
      ∧ parse_ofono_network_status "roaming" = OFONO_NETWORK_REGISTRATION_STATUS_ROAMING)
    ∧ (parse_ofono_network_technology "gsm" = OFONO_NETWORK_TECHNOLOGOY_GSM
      ∧ parse_ofono_network_technology "edge" = OFONO_NETWORK_TECHNOLOGOY_EDGE
      ∧ parse_ofono_network_technology "umts" = OFONO_NETWORK_TECHNOLOGOY_UMTS
      ∧ parse_ofono_network_technology "hspa" = OFONO_NETWORK_TECHNOLOGOY_HSPA
      ∧ parse_ofono_network_technology "lte" = OFONO_NETWORK_TECHNOLOGOY_LTE)
    ∧ (∀ a ∈ ["auto", "auto-only", "manual"], ∀ b ∈ ["auto", "auto-only", "manual"],
        a ≠ b → parse_ofono_network_registration_mode a ≠ parse_ofono_network_registration_mode b)
    ∧ (∀ a ∈ ["unregistered", "registered", "searching", "denied", "roaming"],
        ∀ b ∈ ["unregistered", "registered", "searching", "denied", "roaming"],
        a ≠ b → parse_ofono_network_status a ≠ parse_ofono_network_status b)
    ∧ (∀ a ∈ ["gsm", "edge", "umts", "hspa", "lte"], ∀ b ∈ ["gsm", "edge", "umts", "hspa", "lte"],
        a ≠ b → parse_ofono_network_technology a ≠ parse_ofono_network_technology b)
    ∧ (∀ a ∈ ["auto", "auto-only", "manual"],
        parse_ofono_network_registration_mode a ≠ OFONO_NETWORK_REGISTRATION_MODE_UNKNOWN)
    ∧ (∀ a ∈ ["unregistered", "registered", "searching", "denied", "roaming"],
        parse_ofono_network_status a ≠ OFONO_NETWORK_REGISTRATION_STATUS_UNKNOWN)
    ∧ (∀ a ∈ ["gsm", "edge", "umts", "hspa", "lte"],
        parse_ofono_network_technology a ≠ OFONO_NETWORK_TECHNOLOGOY_UNKNOWN) := by
  refine ⟨by decide, by decide, by decide, by decide, by decide, by decide, by decide, by decide,
    by decide⟩

/-- C4: for every path, the object returned by a successful
`ofono_network_registration_create(path)` answers every getter with the field's
sentinel before any update: unknown mode, status and technology, 0 for
strength, location area code and cell id, the absent string for mcc, mnc,
operator name and base station, and the given path for the path getter. -/
theorem create_getters_return_sentinels (env : create_env) (path : String)
    (netreg : ofono_network_registration)
    (hcreate : ofono_network_registration_create env path = some netreg) :
    ofono_network_registration_get_mode (some netreg) = OFONO_NETWORK_REGISTRATION_MODE_UNKNOWN
    ∧ ofono_network_registration_get_status (some netreg)
        = OFONO_NETWORK_REGISTRATION_STATUS_UNKNOWN
    ∧ ofono_network_registration_get_technology (some netreg) = OFONO_NETWORK_TECHNOLOGOY_UNKNOWN
    ∧ ofono_network_registration_get_strength (some netreg) = 0
    ∧ ofono_network_registration_get_location_area_code (some netreg) = 0
    ∧ ofono_network_registration_get_cell_id (some netreg) = 0
    ∧ ofono_network_registration_get_mcc (some netreg) = none
    ∧ ofono_network_registration_get_mnc (some netreg) = none
    ∧ ofono_network_registration_get_operator_name (some netreg) = none
    ∧ ofono_network_registration_get_base_station (some netreg) = none
    ∧ ofono_network_registration_get_path (some netreg) = some path := by
  unfold ofono_network_registration_create at hcreate
  split at hcreate
  · exact absurd hcreate (by simp)
  · split at hcreate
    · exact absurd hcreate (by simp)
    · simp only [Option.some.injEq] at hcreate
      subst hcreate
      refine ⟨rfl, rfl, rfl, rfl, rfl, rfl, rfl, rfl, rfl, rfl, rfl⟩

/-- C4 witness: creation for "/modem0/netreg" succeeds when memory and the proxy
are available, and the created object answers with the sentinels. -/
theorem create_getters_return_sentinels_witness :
    ofono_network_registration_create ⟨true, some 1, some 2⟩ "/modem0/netreg"
      = some { g_try_new0_netreg with
                remote := some 1, path := some "/modem0/netreg", base := some 2 }
    ∧ ofono_network_registration_get_status
        (some { g_try_new0_netreg with
                  remote := some 1, path := some "/modem0/netreg", base := some 2 })
      = OFONO_NETWORK_REGISTRATION_STATUS_UNKNOWN
    ∧ ofono_network_registration_get_path
        (some { g_try_new0_netreg with
                  remote := some 1, path := some "/modem0/netreg", base := some 2 })
      = some "/modem0/netreg" :=
  have h := create_getters_return_sentinels ⟨true, some 1, some 2⟩ "/modem0/netreg"
    { g_try_new0_netreg with remote := some 1, path := some "/modem0/netreg", base := some 2 } rfl
  ⟨rfl, h.2.1, h.2.2.2.2.2.2.2.2.2.2⟩

/-! ### Single updates -/

/-- An update whose name is none of the ten recognized names falls through
every comparison: the object is returned as it is and no handler is called. -/
theorem update_property_of_not_recognized (name : String) (value : GVariant)
    (netreg : ofono_network_registration) (hname : name ∉ recognized_properties) :
    update_property name value netreg = some (netreg, []) := by
  simp only [recognized_properties, List.mem_cons, List.mem_singleton, List.not_mem_nil,
    or_false, not_or] at hname
  obtain ⟨h1, h2, h3, h4, h5, h6, h7, h8, h9, h10⟩ := hname
  simp [update_property, h1, h2, h3, h4, h5, h6, h7, h8, h9, h10]

/-- One well-typed update, seen through the getter of a recognized property `P`:
it is carried out, and the getter returns the parsed value when the update is
named `P` and what it returned before otherwise. -/
theorem update_property_getter_of (P name : String) (value : GVariant)
    (netreg : ofono_network_registration) (hP : P ∈ recognized_properties)
    (htyped : well_typed (name, value)) :
    ∃ r, update_property name value netreg = some r
      ∧ getter_of P (some r.1)
          = if name = P then parsed_value P value else getter_of P (some netreg) := by
  by_cases hname : name ∈ recognized_properties
  · simp only [well_typed, recognized_properties, List.mem_cons, List.mem_singleton,
      List.not_mem_nil, or_false] at hP htyped hname
    have hv := htyped hname
    rcases hname with rfl | rfl | rfl | rfl | rfl | rfl | rfl | rfl | rfl | rfl <;>
      cases value <;> simp [parsed_value] at hv <;>
      rcases hP with rfl | rfl | rfl | rfl | rfl | rfl | rfl | rfl | rfl | rfl <;>
      simp [update_property, getter_of, parsed_value, g_variant_dup_string,
        g_variant_get_byte, g_variant_get_uint16, g_variant_get_uint32, call_handler,
        ofono_network_registration_get_mode, ofono_network_registration_get_status,
        ofono_network_registration_get_strength,
        ofono_network_registration_get_location_area_code,
        ofono_network_registration_get_cell_id, ofono_network_registration_get_mcc,
        ofono_network_registration_get_mnc, ofono_network_registration_get_technology,
        ofono_network_registration_get_operator_name,
        ofono_network_registration_get_base_station, hv]
  · have hne : name ≠ P := fun h => hname (h ▸ hP)
    exact ⟨(netreg, []), update_property_of_not_recognized name value netreg hname, by simp [hne]⟩

/-- An update of any value, well-typed or not, that is carried out leaves the
getter of every recognized property with another name as it was. -/
theorem update_property_other_getter (P name : String) (value : GVariant)
    (netreg : ofono_network_registration) (r : ofono_network_registration × List handler_call)
    (hP : P ∈ recognized_properties) (hne : name ≠ P)
    (hr : update_property name value netreg = some r) :
    getter_of P (some r.1) = getter_of P (some netreg) := by
  obtain ⟨r1, r2⟩ := r
  by_cases hname : name ∈ recognized_properties
  · simp only [recognized_properties, List.mem_cons, List.mem_singleton,
      List.not_mem_nil, or_false] at hP hname
    rcases hname with rfl | rfl | rfl | rfl | rfl | rfl | rfl | rfl | rfl | rfl <;>
      rcases hP with rfl | rfl | rfl | rfl | rfl | rfl | rfl | rfl | rfl | rfl <;>
      first
        | exact absurd rfl hne
        | (cases value <;>
            simp [update_property, g_variant_dup_string] at hr <;>
            (obtain ⟨h1, _⟩ := hr
             subst h1
             simp [getter_of, ofono_network_registration_get_mode,
              ofono_network_registration_get_status, ofono_network_registration_get_strength,
              ofono_network_registration_get_location_area_code,
              ofono_network_registration_get_cell_id, ofono_network_registration_get_mcc,
              ofono_network_registration_get_mnc, ofono_network_registration_get_technology,
              ofono_network_registration_get_operator_name,
              ofono_network_registration_get_base_station]))
  · rw [update_property_of_not_recognized name value netreg hname] at hr
    simp only [Option.some.injEq, Prod.mk.injEq] at hr
    rw [← hr.1]
/-- One update that hands its parser a string, seen through the getter of a
recognized property `P`: it is carried out, and the getter returns what the
code reads from the value when the update is named `P` and what it returned
before otherwise. The value may be of any type. -/
theorem update_property_read_value (P name : String) (value : GVariant)
    (netreg : ofono_network_registration) (hP : P ∈ recognized_properties)
    (hstr : parser_gets_string (name, value)) :
    ∃ r, update_property name value netreg = some r
      ∧ getter_of P (some r.1)
          = if name = P then read_value P value else getter_of P (some netreg) := by
  have hP2 := hP
  simp only [recognized_properties, List.mem_cons, List.mem_singleton,
    List.not_mem_nil, or_false] at hP2
  by_cases henum : name = "Mode" ∨ name = "Status" ∨ name = "Technology"
  · obtain ⟨s, hs⟩ := Option.isSome_iff_exists.mp (hstr henum)
    simp only at hs
    rcases henum with rfl | rfl | rfl <;>
      rcases hP2 with rfl | rfl | rfl | rfl | rfl | rfl | rfl | rfl | rfl | rfl <;>
      simp [update_property, getter_of, read_value, call_handler, hs,
        ofono_network_registration_get_mode, ofono_network_registration_get_status,
        ofono_network_registration_get_strength,
        ofono_network_registration_get_location_area_code,
        ofono_network_registration_get_cell_id, ofono_network_registration_get_mcc,
        ofono_network_registration_get_mnc, ofono_network_registration_get_technology,
        ofono_network_registration_get_operator_name,
        ofono_network_registration_get_base_station]
  · by_cases hname : name ∈ recognized_properties
    · simp only [recognized_properties, List.mem_cons, List.mem_singleton,
        List.not_mem_nil, or_false] at hname
      rcases hname with rfl | rfl | rfl | rfl | rfl | rfl | rfl | rfl | rfl | rfl <;>
        first
          | (simp at henum
             done)
          | (rcases hP2 with rfl | rfl | rfl | rfl | rfl | rfl | rfl | rfl | rfl | rfl <;>
              simp [update_property, getter_of, read_value, call_handler,
                ofono_network_registration_get_mode, ofono_network_registration_get_status,
                ofono_network_registration_get_strength,
                ofono_network_registration_get_location_area_code,
                ofono_network_registration_get_cell_id, ofono_network_registration_get_mcc,
                ofono_network_registration_get_mnc, ofono_network_registration_get_technology,
                ofono_network_registration_get_operator_name,
                ofono_network_registration_get_base_station])
    · have hne : name ≠ P := fun h => hname (h ▸ hP)
      exact ⟨(netreg, []), update_property_of_not_recognized name value netreg hname,
        by simp [hne]⟩

/-- An update is carried out exactly when it hands its parser a string: the
only way `update_property` fails to return is a Mode, Status or Technology
update whose value `g_variant_dup_string` turns into `NULL`. -/
theorem update_property_carried_out_iff (name : String) (value : GVariant)
    (netreg : ofono_network_registration) :
    (∃ r, update_property name value netreg = some r) ↔ parser_gets_string (name, value) := by
  constructor
  · rintro ⟨r, hr⟩ hname
    cases hs : g_variant_dup_string value with
    | some s => rfl
    | none =>
      simp only at hname
      rcases hname with rfl | rfl | rfl <;> simp [update_property, hs] at hr
  · intro hstr
    obtain ⟨r, hr, _⟩ := update_property_read_value "Mode" name value netreg (by decide) hstr
    exact ⟨r, hr⟩

/-- A value of the property's type hands the parser a string, and what the code
reads from it is its parsed form. -/
theorem read_value_of_well_typed (name : String) (value : GVariant)
    (htyped : well_typed (name, value)) :
    parser_gets_string (name, value)
    ∧ (name ∈ recognized_properties → read_value name value = parsed_value name value) := by
  constructor
  · intro hname
    simp only at hname
    have hmem : name ∈ recognized_properties := by
      rcases hname with rfl | rfl | rfl <;> decide
    have hv := htyped hmem
    simp only at hv
    rcases hname with rfl | rfl | rfl <;> cases value <;>
      simp [parsed_value] at hv <;> rfl
  · intro hmem
    have hv := htyped hmem
    simp only [recognized_properties, List.mem_cons, List.mem_singleton,
      List.not_mem_nil, or_false] at hmem
    rcases hmem with rfl | rfl | rfl | rfl | rfl | rfl | rfl | rfl | rfl | rfl <;>
      cases value <;> simp [parsed_value] at hv <;>
      simp [read_value, parsed_value, g_variant_dup_string, g_variant_get_byte,
        g_variant_get_uint16, g_variant_get_uint32, hv]

/-! ### Sequences of updates -/

/-- A well-typed update is carried out. -/
theorem update_property_defined (name : String) (value : GVariant)
    (netreg : ofono_network_registration) (htyped : well_typed (name, value)) :
    ∃ r, update_property name value netreg = some r := by
  obtain ⟨r, hr, _⟩ := update_property_getter_of "Mode" name value netreg (by decide) htyped
  exact ⟨r, hr⟩

/-- Unfolding of `apply_updates` at a first update that is carried out. -/
theorem apply_updates_cons (name : String) (value : GVariant)
    (rest : List (String × GVariant)) (netreg : ofono_network_registration)
    (r1 r2 : ofono_network_registration × List handler_call)
    (h1 : update_property name value netreg = some r1)
    (h2 : apply_updates rest r1.1 = some r2) :
    apply_updates ((name, value) :: rest) netreg = some (r2.1, r1.2 ++ r2.2) := by
  obtain ⟨a, b⟩ := r1
  obtain ⟨c, d⟩ := r2
  simp only [apply_updates, h1]
  simp only at h2
  simp only [h2]

/-- Last write wins, from any starting object: a sequence of updates each of
which hands its parser a string is carried out, and afterwards the getter of a
recognized property returns what the code reads from the last update with that
name, or what it returned at the start when there is none. -/
theorem apply_updates_getter_of (updates : List (String × GVariant))
    (hstr : ∀ u ∈ updates, parser_gets_string u) (netreg : ofono_network_registration) :
    ∃ r, apply_updates updates netreg = some r
      ∧ ∀ P ∈ recognized_properties, getter_of P (some r.1)
          = match last_update P updates with
            | none => getter_of P (some netreg)
            | some v => read_value P v := by
  induction updates generalizing netreg with
  | nil => exact ⟨(netreg, []), rfl, fun P _ => rfl⟩
  | cons u rest ih =>
    obtain ⟨name, value⟩ := u
    have hu : parser_gets_string (name, value) := hstr _ (List.mem_cons_self _ _)
    obtain ⟨r1, h1⟩ := (update_property_carried_out_iff name value netreg).mpr hu
    obtain ⟨r2, h2, hget⟩ := ih (fun u hu => hstr u (List.mem_cons_of_mem _ hu)) r1.1
    refine ⟨(r2.1, r1.2 ++ r2.2), apply_updates_cons name value rest netreg r1 r2 h1 h2, ?_⟩
    intro P hP
    have hstep : getter_of P (some r1.1)
        = if name = P then read_value P value else getter_of P (some netreg) := by
      obtain ⟨r, hr, hg⟩ := update_property_read_value P name value netreg hP hu
      rw [h1] at hr
      cases hr
      exact hg
    rw [hget P hP]
    simp only [last_update]
    cases hlast : last_update P rest with
    | some w => rfl
    | none =>
      simp only [hstep]
      by_cases hname : name = P <;> simp [hname]

/-- A sequence of updates is carried out exactly when each of its updates hands
its parser a string. -/
theorem apply_updates_carried_out_iff (updates : List (String × GVariant)) :
    ∀ netreg : ofono_network_registration,
      (∃ r, apply_updates updates netreg = some r) ↔ ∀ u ∈ updates, parser_gets_string u := by
  induction updates with
  | nil =>
    intro netreg
    exact ⟨fun _ u hu => absurd hu (List.not_mem_nil u), fun _ => ⟨(netreg, []), rfl⟩⟩
  | cons u rest ih =>
    intro netreg
    obtain ⟨name, value⟩ := u
    constructor
    · rintro ⟨r, hr⟩
      simp only [apply_updates] at hr
      cases h1 : update_property name value netreg with
      | none => simp [h1] at hr
      | some r1 =>
        obtain ⟨a, b⟩ := r1
        simp only [h1] at hr
        cases h2 : apply_updates rest a with
        | none => simp [h2] at hr
        | some r2 =>
          intro u hu
          rcases List.mem_cons.mp hu with rfl | hu'
          · exact (update_property_carried_out_iff name value netreg).mp ⟨_, h1⟩
          · exact (ih a).mp ⟨r2, h2⟩ u hu'
    · intro h
      obtain ⟨r1, h1⟩ :=
        (update_property_carried_out_iff name value netreg).mpr (h _ (List.mem_cons_self _ _))
      obtain ⟨r2, h2⟩ := (ih r1.1).mpr (fun u hu => h u (List.mem_cons_of_mem _ hu))
      exact ⟨_, apply_updates_cons name value rest netreg r1 r2 h1 h2⟩

/-- The getters of a created object return the sentinels, property by property. -/
theorem getter_of_create (env : create_env) (path : String)
    (netreg : ofono_network_registration)
    (hcreate : ofono_network_registration_create env path = some netreg) :
    ∀ P ∈ recognized_properties, getter_of P (some netreg) = sentinel_of P := by
  unfold ofono_network_registration_create at hcreate
  split at hcreate
  · exact absurd hcreate (by simp)
  · split at hcreate
    · exact absurd hcreate (by simp)
    · simp only [Option.some.injEq] at hcreate
      subst hcreate
      intro P hP
      simp only [recognized_properties, List.mem_cons, List.mem_singleton,
        List.not_mem_nil, or_false] at hP
      rcases hP with rfl | rfl | rfl | rfl | rfl | rfl | rfl | rfl | rfl | rfl <;> rfl

/-- C5, as the source has it: last write wins per property over the sequences the
code carries out. A finite sequence of updates applied in order to a freshly
created object is carried out exactly when every update named Mode, Status or
Technology carries a value of a string type (any other update may carry a value
of any type). For such a sequence the getter of each recognized property P then
returns what the code reads from the last update named P (the parsed enum of
the string; the number, or 0 for a value of another type; the string, or `NULL`
for a value of another type), which for a value of the property's type is its
parsed form, or the sentinel of P when no update is named P. An update with
another name, whatever its value, never changes what the getter of P returns. -/
theorem last_write_wins (env : create_env) (path : String)
    (netreg : ofono_network_registration)
    (hcreate : ofono_network_registration_create env path = some netreg)
    (updates : List (String × GVariant)) (hstr : ∀ u ∈ updates, parser_gets_string u) :
    (∃ r, apply_updates updates netreg = some r
      ∧ ∀ P ∈ recognized_properties, getter_of P (some r.1)
          = match last_update P updates with
            | none => sentinel_of P
            | some v => read_value P v)
    ∧ (∀ P ∈ recognized_properties, ∀ (name : String) (value : GVariant)
        (n : ofono_network_registration) (r : ofono_network_registration × List handler_call),
        name ≠ P → update_property name value n = some r →
        getter_of P (some r.1) = getter_of P (some n))
    ∧ (∀ us : List (String × GVariant),
        (∃ r, apply_updates us netreg = some r) ↔ ∀ u ∈ us, parser_gets_string u)
    ∧ (∀ u : String × GVariant, well_typed u →
        parser_gets_string u
        ∧ (u.1 ∈ recognized_properties → read_value u.1 u.2 = parsed_value u.1 u.2)) := by
  refine ⟨?_, fun P hP name value n r hne hr =>
    update_property_other_getter P name value n r hP hne hr,
    fun us => apply_updates_carried_out_iff us netreg,
    fun u hu => read_value_of_well_typed u.1 u.2 hu⟩
  obtain ⟨r, hr, hget⟩ := apply_updates_getter_of updates hstr netreg
  refine ⟨r, hr, fun P hP => ?_⟩
  rw [hget P hP, getter_of_create env path netreg hcreate P hP]

/-- C5 witness: on the object created for "/modem0/netreg", the updates
Strength 10, Status "searching", an unrecognized Foo, LocationAreaCode with a
string value, Strength 80 and Status "registered" leave strength 80, status
REGISTERED and location area code 0, and the mode, which no update names, at its
sentinel. -/
theorem last_write_wins_witness :
    (∀ u ∈ [("Strength", GVariant.byte 10), ("Status", GVariant.string "searching"),
        ("Foo", GVariant.boolean true), ("LocationAreaCode", GVariant.string "x"),
        ("Strength", GVariant.byte 80), ("Status", GVariant.string "registered")],
      parser_gets_string u)
    ∧ ∃ r, apply_updates [("Strength", GVariant.byte 10), ("Status", GVariant.string "searching"),
          ("Foo", GVariant.boolean true), ("LocationAreaCode", GVariant.string "x"),
          ("Strength", GVariant.byte 80), ("Status", GVariant.string "registered")]
          { g_try_new0_netreg with
              remote := some 1, path := some "/modem0/netreg", base := some 2 } = some r
        ∧ getter_of "Strength" (some r.1) = some (.number 80)
        ∧ getter_of "Status" (some r.1)
            = some (.status OFONO_NETWORK_REGISTRATION_STATUS_REGISTERED)
        ∧ getter_of "LocationAreaCode" (some r.1) = some (.number 0)
        ∧ getter_of "Mode" (some r.1) = some (.mode OFONO_NETWORK_REGISTRATION_MODE_UNKNOWN) := by
  obtain ⟨r, hr, hget⟩ := (last_write_wins ⟨true, some 1, some 2⟩ "/modem0/netreg"
    { g_try_new0_netreg with remote := some 1, path := some "/modem0/netreg", base := some 2 } rfl
    [("Strength", GVariant.byte 10), ("Status", GVariant.string "searching"),
      ("Foo", GVariant.boolean true), ("LocationAreaCode", GVariant.string "x"),
      ("Strength", GVariant.byte 80), ("Status", GVariant.string "registered")] (by decide)).1
  exact ⟨by decide, r, hr, hget "Strength" (by decide), hget "Status" (by decide),
    hget "LocationAreaCode" (by decide), hget "Mode" (by decide)⟩

/-- C5 counterexample: on the object created for "/modem0/netreg", the update
Mode with a byte value is not carried out: `g_variant_dup_string` returns `NULL`
for the byte and `parse_ofono_network_registration_mode` reads through it. The
one-update sequence has no final state, so no getter returns the parsed value
of its last update named Mode. -/
theorem mistyped_mode_update_is_not_carried_out :
    ofono_network_registration_create ⟨true, some 1, some 2⟩ "/modem0/netreg"
      = some { g_try_new0_netreg with
                remote := some 1, path := some "/modem0/netreg", base := some 2 }
    ∧ g_variant_dup_string (GVariant.byte 5) = none
    ∧ update_property "Mode" (GVariant.byte 5)
        { g_try_new0_netreg with
            remote := some 1, path := some "/modem0/netreg", base := some 2 } = none
    ∧ apply_updates [("Mode", GVariant.byte 5)]
        { g_try_new0_netreg with
            remote := some 1, path := some "/modem0/netreg", base := some 2 } = none :=
  ⟨rfl, rfl, by decide, by decide⟩

/-- C6: an update whose name is not one of the ten recognized names (compared
case-sensitively) leaves the whole object as it is, all cached fields, both
handler slots, path and reference count, and calls neither handler, whatever
the value. -/
theorem update_property_unrecognized_name (name : String) (value : GVariant)
    (netreg : ofono_network_registration)
    (hname : name ∉ ["Mode", "Status", "LocationAreaCode", "CellId", "MobileCountryCode",
      "MobileNetworkCode", "Technology", "Name", "Strength", "BaseStation"]) :
    update_property name value netreg = some (netreg, []) :=
  update_property_of_not_recognized name value netreg hname

/-- C6 witness: "status" in lower case is not a recognized name; the update
changes nothing on an object with both handlers registered and calls nothing. -/
theorem update_property_unrecognized_name_witness :
    "status" ∉ ["Mode", "Status", "LocationAreaCode", "CellId", "MobileCountryCode",
      "MobileNetworkCode", "Technology", "Name", "Strength", "BaseStation"]
    ∧ update_property "status" (.string "registered")
        { g_try_new0_netreg with
            status_changed_cb := some 7, strength_changed_cb := some 8, ref_count := 1 }
      = some ({ g_try_new0_netreg with
                  status_changed_cb := some 7, strength_changed_cb := some 8, ref_count := 1 },
              []) :=
  ⟨by decide, update_property_unrecognized_name "status" (.string "registered")
    { g_try_new0_netreg with
        status_changed_cb := some 7, strength_changed_cb := some 8, ref_count := 1 }
    (by decide)⟩

/-! ### Handler calls -/

/-- The handler calls of one update that is carried out, and the handler slots
after it: a "Status" update calls through the status slot, a "Strength" update
through the strength slot, each with the object as updated; no other update
calls anything; no update writes to a slot. -/
theorem update_property_calls (name : String) (value : GVariant)
    (netreg : ofono_network_registration) (r : ofono_network_registration × List handler_call)
    (hr : update_property name value netreg = some r) :
    r.2 = (if name = "Status" then
            call_handler .status_changed netreg.status_changed_cb netreg.status_changed_data r.1
          else if name = "Strength" then
            call_handler .strength_changed netreg.strength_changed_cb
              netreg.strength_changed_data r.1
          else [])
    ∧ r.1.status_changed_cb = netreg.status_changed_cb
    ∧ r.1.status_changed_data = netreg.status_changed_data
    ∧ r.1.strength_changed_cb = netreg.strength_changed_cb
    ∧ r.1.strength_changed_data = netreg.strength_changed_data := by
  obtain ⟨r1, r2⟩ := r
  by_cases hname : name ∈ recognized_properties
  · simp only [recognized_properties, List.mem_cons, List.mem_singleton,
      List.not_mem_nil, or_false] at hname
    rcases hname with rfl | rfl | rfl | rfl | rfl | rfl | rfl | rfl | rfl | rfl <;>
      cases value <;>
      simp [update_property, g_variant_dup_string] at hr <;>
      (obtain ⟨h1, h2⟩ := hr
       subst h1 h2
       simp)
  · have hne : name ≠ "Status" ∧ name ≠ "Strength" := by
      simp only [recognized_properties, List.mem_cons, List.mem_singleton, List.not_mem_nil,
        or_false, not_or] at hname
      exact ⟨hname.2.1, hname.2.2.2.2.2.2.2.2.1⟩
    rw [update_property_of_not_recognized name value netreg hname] at hr
    simp only [Option.some.injEq, Prod.mk.injEq] at hr
    obtain ⟨h1, h2⟩ := hr
    subst h1 h2
    simp [hne.1, hne.2]

/-- The calls through the status slot during a sequence of updates each of which
hands its parser a string, from any object whose status slot holds
`(cb, data)`: one call per update named "Status", in order, each made with
`data` when the status getter already returns the status parsed from that
update. -/
theorem apply_updates_status_calls (updates : List (String × GVariant))
    (hstr : ∀ u ∈ updates, parser_gets_string u) (netreg : ofono_network_registration)
    (cb : ofono_property_changed_cb) (data : gpointer)
    (hcb : netreg.status_changed_cb = some cb) (hdata : netreg.status_changed_data = data) :
    ∃ r, apply_updates updates netreg = some r
      ∧ (r.2.filter (fun c => c.slot = handler_slot.status_changed)).map
          (fun c => (c.cb, c.data, getter_of "Status" (some c.netreg)))
        = (updates.filter (fun u => u.1 = "Status")).map
            (fun u => (cb, data, read_value "Status" u.2)) := by
  induction updates generalizing netreg with
  | nil => exact ⟨(netreg, []), rfl, rfl⟩
  | cons u rest ih =>
    obtain ⟨name, value⟩ := u
    have hu : parser_gets_string (name, value) := hstr _ (List.mem_cons_self _ _)
    obtain ⟨r1, h1, hget⟩ :=
      update_property_read_value "Status" name value netreg (by decide) hu
    obtain ⟨hcalls, hcb1, hdata1, _, _⟩ := update_property_calls name value netreg r1 h1
    obtain ⟨r2, h2, hrest⟩ := ih (fun u hu => hstr u (List.mem_cons_of_mem _ hu)) r1.1
      (hcb1.trans hcb) (hdata1.trans hdata)
    refine ⟨(r2.1, r1.2 ++ r2.2), apply_updates_cons name value rest netreg r1 r2 h1 h2, ?_⟩
    simp only [List.filter_append, List.map_append, hrest]
    by_cases hname : name = "Status"
    · simp only [hname, if_true] at hcalls hget
      simp [hcalls, hcb, hdata, call_handler, hname, hget]
    · by_cases hname2 : name = "Strength"
      · simp only [hname2] at hcalls
        cases hs : netreg.strength_changed_cb <;> simp [hcalls, hs, call_handler, hname2]
      · simp [hcalls, hname, hname2]

/-- C7, as the source has it: with a status-changed handler registered
beforehand, every sequence of updates in which each update named Mode, Status
or Technology carries a value of a string type (the sequences the code carries
out; any other update may carry a value of any type) is carried out, and the
handler is called exactly once per update named "Status", also when the value
repeats, each call made with the registered argument after the cached status
has been set to the new parsed value. In particular, Status "registered" and
Strength 80 applied in either order to a fresh object call the status handler
exactly once, at a moment when the status getter returns REGISTERED, and
afterwards the status getter returns REGISTERED and the strength getter 80. -/
theorem status_handler_once_per_status_update :
    (∀ (n n0 : ofono_network_registration) (cb : ofono_property_changed_cb) (data : gpointer)
        (updates : List (String × GVariant)),
        ofono_network_registration_register_status_changed_handler (some n) (some cb) data
          = some n0 →
        (∀ u ∈ updates, parser_gets_string u) →
        ∃ r, apply_updates updates n0 = some r
          ∧ (r.2.filter (fun c => c.slot = handler_slot.status_changed)).map
              (fun c => (c.cb, c.data, getter_of "Status" (some c.netreg)))
            = (updates.filter (fun u => u.1 = "Status")).map
                (fun u => (cb, data, read_value "Status" u.2)))
    ∧ (∀ (n0 : ofono_network_registration) (updates : List (String × GVariant)),
        (∃ r, apply_updates updates n0 = some r) ↔ ∀ u ∈ updates, parser_gets_string u)
    ∧ (∀ (env : create_env) (path : String) (n n0 : ofono_network_registration)
        (cb : ofono_property_changed_cb) (data : gpointer),
        ofono_network_registration_create env path = some n →
        ofono_network_registration_register_status_changed_handler (some n) (some cb) data
          = some n0 →
        ∀ updates ∈ [[("Status", GVariant.string "registered"), ("Strength", GVariant.byte 80)],
                     [("Strength", GVariant.byte 80), ("Status", GVariant.string "registered")]],
          ∃ r c, apply_updates updates n0 = some r
            ∧ r.2 = [c]
            ∧ c.slot = handler_slot.status_changed ∧ c.cb = cb ∧ c.data = data
            ∧ ofono_network_registration_get_status (some c.netreg)
                = OFONO_NETWORK_REGISTRATION_STATUS_REGISTERED
            ∧ ofono_network_registration_get_status (some r.1)
                = OFONO_NETWORK_REGISTRATION_STATUS_REGISTERED
            ∧ ofono_network_registration_get_strength (some r.1) = 80) := by
  refine ⟨?_, fun n0 updates => apply_updates_carried_out_iff updates n0, ?_⟩
  · intro n n0 cb data updates hreg hstr
    simp only [ofono_network_registration_register_status_changed_handler,
      Option.some.injEq] at hreg
    subst hreg
    exact apply_updates_status_calls updates hstr _ cb data rfl rfl
  · intro env path n n0 cb data hcreate hreg updates hmem
    unfold ofono_network_registration_create at hcreate
    split at hcreate
    · exact absurd hcreate (by simp)
    · split at hcreate
      · exact absurd hcreate (by simp)
      · simp only [Option.some.injEq] at hcreate
        subst hcreate
        simp only [ofono_network_registration_register_status_changed_handler,
          Option.some.injEq] at hreg
        subst hreg
        simp only [List.mem_cons, List.mem_singleton, List.not_mem_nil, or_false] at hmem
        rcases hmem with rfl | rfl
        · exact ⟨_, _, rfl, rfl, rfl, rfl, rfl, rfl, rfl, rfl⟩
        · exact ⟨_, _, rfl, rfl, rfl, rfl, rfl, rfl, rfl, rfl⟩

/-- C7 witness: on the object created for "/modem0/netreg" with handler 7 and
argument 9 registered, the updates Status "registered", Strength with a string
value, Status "registered" call the status handler twice, once per Status
update. -/
theorem status_handler_once_per_status_update_witness :
    ofono_network_registration_register_status_changed_handler
        (some { g_try_new0_netreg with
                  remote := some 1, path := some "/modem0/netreg", base := some 2 })
        (some 7) 9
      = some { g_try_new0_netreg with
                remote := some 1, path := some "/modem0/netreg", base := some 2,
                status_changed_cb := some 7, status_changed_data := 9 }
    ∧ (∀ u ∈ [("Status", GVariant.string "registered"), ("Strength", GVariant.string "x"),
        ("Status", GVariant.string "registered")], parser_gets_string u)
    ∧ ∃ r, apply_updates [("Status", GVariant.string "registered"),
          ("Strength", GVariant.string "x"), ("Status", GVariant.string "registered")]
          { g_try_new0_netreg with
              remote := some 1, path := some "/modem0/netreg", base := some 2,
              status_changed_cb := some 7, status_changed_data := 9 } = some r
        ∧ (r.2.filter (fun c => c.slot = handler_slot.status_changed)).map
            (fun c => (c.cb, c.data, getter_of "Status" (some c.netreg)))
          = [(7, 9, some (.status OFONO_NETWORK_REGISTRATION_STATUS_REGISTERED)),
             (7, 9, some (.status OFONO_NETWORK_REGISTRATION_STATUS_REGISTERED))] :=
  ⟨rfl, by decide,
    status_handler_once_per_status_update.1
      { g_try_new0_netreg with remote := some 1, path := some "/modem0/netreg", base := some 2 }
      { g_try_new0_netreg with
          remote := some 1, path := some "/modem0/netreg", base := some 2,
          status_changed_cb := some 7, status_changed_data := 9 }
      7 9
      [("Status", GVariant.string "registered"), ("Strength", GVariant.string "x"),
        ("Status", GVariant.string "registered")]
      rfl (by decide)⟩

/-- C7 counterexample: on the object created for "/modem0/netreg" with handler 7
and argument 9 registered, the update Status with a byte value is not carried
out: `g_variant_dup_string` returns `NULL` for the byte and
`parse_ofono_network_status` reads through it before line 107 is reached. The
sequence holds one update named "Status" and the handler is not called once. -/
theorem mistyped_status_update_calls_no_handler :
    ofono_network_registration_register_status_changed_handler
        (ofono_network_registration_create ⟨true, some 1, some 2⟩ "/modem0/netreg")
        (some 7) 9
      = some { g_try_new0_netreg with
                remote := some 1, path := some "/modem0/netreg", base := some 2,
                status_changed_cb := some 7, status_changed_data := 9 }
    ∧ ([("Status", GVariant.byte 5)].filter (fun u => u.1 = "Status")).length = 1
    ∧ update_property "Status" (GVariant.byte 5)
        { g_try_new0_netreg with
            remote := some 1, path := some "/modem0/netreg", base := some 2,
            status_changed_cb := some 7, status_changed_data := 9 } = none
    ∧ apply_updates [("Status", GVariant.byte 5)]
        { g_try_new0_netreg with
            remote := some 1, path := some "/modem0/netreg", base := some 2,
            status_changed_cb := some 7, status_changed_data := 9 } = none :=
  ⟨rfl, by decide, by decide, by decide⟩

/-- C8: only Status and Strength updates have callback hooks. On an object with
both handlers registered, and for every value, an update named Technology,
Mode, LocationAreaCode, CellId, MobileCountryCode, MobileNetworkCode, Name or
BaseStation calls no handler; a Status update calls the status-changed handler
and nothing else; a Strength update calls the strength-changed handler and
nothing else; every well-typed update is carried out; and after the update
Technology "lte" the technology getter returns LTE whatever it returned before. -/
theorem only_status_and_strength_have_hooks (netreg : ofono_network_registration)
    (value : GVariant) (cb1 cb2 : ofono_property_changed_cb) (data1 data2 : gpointer)
    (hstatus : netreg.status_changed_cb = some cb1 ∧ netreg.status_changed_data = data1)
    (hstrength : netreg.strength_changed_cb = some cb2 ∧ netreg.strength_changed_data = data2) :
    (∀ name ∈ ["Technology", "Mode", "LocationAreaCode", "CellId", "MobileCountryCode",
        "MobileNetworkCode", "Name", "BaseStation"],
        ∀ r, update_property name value netreg = some r → r.2 = [])
    ∧ (∀ r, update_property "Status" value netreg = some r →
        r.2 = [{ slot := .status_changed, cb := cb1, data := data1, netreg := r.1 }])
    ∧ (∀ r, update_property "Strength" value netreg = some r →
        r.2 = [{ slot := .strength_changed, cb := cb2, data := data2, netreg := r.1 }])
    ∧ (∀ name, well_typed (name, value) → ∃ r, update_property name value netreg = some r)
    ∧ (update_property "Technology" (.string "lte") netreg).map
        (fun r => (ofono_network_registration_get_technology (some r.1), r.2))
      = some (OFONO_NETWORK_TECHNOLOGOY_LTE, []) := by
  refine ⟨?_, ?_, ?_, ?_, ?_⟩
  · intro name hname r hr
    have hcalls := (update_property_calls name value netreg r hr).1
    simp only [List.mem_cons, List.mem_singleton, List.not_mem_nil, or_false] at hname
    rcases hname with rfl | rfl | rfl | rfl | rfl | rfl | rfl | rfl <;> simpa using hcalls
  · intro r hr
    have hcalls := (update_property_calls "Status" value netreg r hr).1
    simpa [call_handler, hstatus.1, hstatus.2] using hcalls
  · intro r hr
    have hcalls := (update_property_calls "Strength" value netreg r hr).1
    simpa [call_handler, hstrength.1, hstrength.2] using hcalls
  · intro name htyped
    exact update_property_defined name value netreg htyped
  · simp [update_property, g_variant_dup_string, ofono_network_registration_get_technology,
      parse_ofono_network_technology]

/-- C8 witness: on an object with technology EDGE, status handler 7 and strength
handler 8 registered, the update Technology "lte" calls nothing and leaves the
technology getter at LTE, and Strength 80 calls handler 8 only. -/
theorem only_status_and_strength_have_hooks_witness :
    (update_property "Technology" (.string "lte")
        { g_try_new0_netreg with
            technology := OFONO_NETWORK_TECHNOLOGOY_EDGE,
            status_changed_cb := some 7, status_changed_data := 70,
            strength_changed_cb := some 8, strength_changed_data := 80 }).map
        (fun r => (ofono_network_registration_get_technology (some r.1), r.2))
      = some (OFONO_NETWORK_TECHNOLOGOY_LTE, [])
    ∧ (update_property "Strength" (.byte 80)
        { g_try_new0_netreg with
            technology := OFONO_NETWORK_TECHNOLOGOY_EDGE,
            status_changed_cb := some 7, status_changed_data := 70,
            strength_changed_cb := some 8, strength_changed_data := 80 }).map
        (fun r => r.2.map (fun c => (c.slot, c.cb, c.data)))
      = some [(handler_slot.strength_changed, 8, 80)] :=
  have h := only_status_and_strength_have_hooks
    { g_try_new0_netreg with
        technology := OFONO_NETWORK_TECHNOLOGOY_EDGE,
        status_changed_cb := some 7, status_changed_data := 70,
        strength_changed_cb := some 8, strength_changed_data := 80 }
    (.byte 80) 7 8 70 80 ⟨rfl, rfl⟩ ⟨rfl, rfl⟩
  ⟨h.2.2.2.2, by
    obtain ⟨r, hr⟩ := h.2.2.2.1 "Strength" (by decide)
    rw [hr, Option.map_some', h.2.2.1 r hr]
    rfl⟩

/-- C9: replace semantics of handler registration. After registering
`(cb1, ctx1)` and then `(cb2, ctx2)` as status-changed handler, the next Status
update makes exactly one call, of `cb2` with `ctx2`, and none of `cb1`; the same
holds for the strength-changed slot and a Strength update. Registering a
handler in one slot leaves the other slot and every cached field as they were. -/
theorem register_handler_replaces (n : ofono_network_registration)
    (cb1 cb2 : ofono_property_changed_cb) (ctx1 ctx2 : gpointer) (s : String) (b : Nat) :
    (∃ n2 r,
        ofono_network_registration_register_status_changed_handler
          (ofono_network_registration_register_status_changed_handler (some n) (some cb1) ctx1)
          (some cb2) ctx2 = some n2
        ∧ update_property "Status" (.string s) n2 = some r
        ∧ r.2 = [{ slot := .status_changed, cb := cb2, data := ctx2, netreg := r.1 }]
        ∧ (cb1 ≠ cb2 → ∀ c ∈ r.2, c.cb ≠ cb1))
    ∧ (∃ n2 r,
        ofono_network_registration_register_strength_changed_handler
          (ofono_network_registration_register_strength_changed_handler (some n) (some cb1) ctx1)
          (some cb2) ctx2 = some n2
        ∧ update_property "Strength" (.byte b) n2 = some r
        ∧ r.2 = [{ slot := .strength_changed, cb := cb2, data := ctx2, netreg := r.1 }]
        ∧ (cb1 ≠ cb2 → ∀ c ∈ r.2, c.cb ≠ cb1))
    ∧ (∀ (cb : Option ofono_property_changed_cb) (data : gpointer),
        ofono_network_registration_register_status_changed_handler (some n) cb data
          = some { n with status_changed_cb := cb, status_changed_data := data }
        ∧ ofono_network_registration_register_strength_changed_handler (some n) cb data
          = some { n with strength_changed_cb := cb, strength_changed_data := data }
        ∧ ∀ P ∈ recognized_properties,
            getter_of P (ofono_network_registration_register_status_changed_handler
              (some n) cb data) = getter_of P (some n)
            ∧ getter_of P (ofono_network_registration_register_strength_changed_handler
              (some n) cb data) = getter_of P (some n)) := by
  refine ⟨?_, ?_, ?_⟩
  · refine ⟨{ n with status_changed_cb := some cb2, status_changed_data := ctx2 },
      ({ n with status_changed_cb := some cb2, status_changed_data := ctx2,
                status := parse_ofono_network_status s },
       [{ slot := .status_changed, cb := cb2, data := ctx2,
          netreg := { n with status_changed_cb := some cb2, status_changed_data := ctx2,
                             status := parse_ofono_network_status s } }]),
      rfl, ?_, rfl, ?_⟩
    · simp [update_property, g_variant_dup_string, call_handler]
    · intro hne c hc
      simp only [List.mem_singleton] at hc
      subst hc
      exact fun h => hne h.symm
  · refine ⟨{ n with strength_changed_cb := some cb2, strength_changed_data := ctx2 },
      ({ n with strength_changed_cb := some cb2, strength_changed_data := ctx2,
                strength := g_variant_get_byte (.byte b) },
       [{ slot := .strength_changed, cb := cb2, data := ctx2,
          netreg := { n with strength_changed_cb := some cb2, strength_changed_data := ctx2,
                             strength := g_variant_get_byte (.byte b) } }]),
      rfl, ?_, rfl, ?_⟩
    · simp [update_property, call_handler]
    · intro hne c hc
      simp only [List.mem_singleton] at hc
      subst hc
      exact fun h => hne h.symm
  · intro cb data
    refine ⟨rfl, rfl, ?_⟩
    intro P hP
    simp only [recognized_properties, List.mem_cons, List.mem_singleton,
      List.not_mem_nil, or_false] at hP
    rcases hP with rfl | rfl | rfl | rfl | rfl | rfl | rfl | rfl | rfl | rfl <;>
      exact ⟨rfl, rfl⟩

/-- C9 witness: after registering handler 7 (argument 70) and then handler 8
(argument 80) in the status slot of the zero-filled object, the update Status
"roaming" calls handler 8 with 80 once, and no call goes to handler 7. -/
theorem register_handler_replaces_witness :
    (7 : ofono_property_changed_cb) ≠ 8
    ∧ ∃ n2 r,
        ofono_network_registration_register_status_changed_handler
          (ofono_network_registration_register_status_changed_handler
            (some g_try_new0_netreg) (some 7) 70)
          (some 8) 80 = some n2
        ∧ update_property "Status" (.string "roaming") n2 = some r
        ∧ r.2.map (fun c => (c.slot, c.cb, c.data)) = [(handler_slot.status_changed, 8, 80)]
        ∧ ∀ c ∈ r.2, c.cb ≠ 7 := by
  obtain ⟨n2, r, h1, h2, h3, h4⟩ :=
    (register_handler_replaces g_try_new0_netreg 7 8 70 80 "roaming" 0).1
  exact ⟨by decide, n2, r, h1, h2, by rw [h3]; rfl, h4 (by decide)⟩

/-- C10, as the source has it: `create` returns an instance whose reference
count is 0, the value the zero-filling allocation leaves, since `create` takes no
reference of its own; the object is torn down (proxy released, memory freed) by
the `unref` that follows one `ref`. -/
theorem create_ref_count_zero (env : create_env) (path : String)
    (netreg : ofono_network_registration)
    (hcreate : ofono_network_registration_create env path = some netreg) :
    netreg.ref_count = 0
    ∧ ∃ remote, env.proxy = some remote
      ∧ ofono_network_registration_unref (ofono_network_registration_ref (some netreg))
        = (none, [teardown_step.g_object_unref remote, teardown_step.g_free_netreg]) := by
  unfold ofono_network_registration_create at hcreate
  split at hcreate
  · exact absurd hcreate (by simp)
  · split at hcreate
    · exact absurd hcreate (by simp)
    · rename_i remote hproxy
      simp only [Option.some.injEq] at hcreate
      subst hcreate
      exact ⟨rfl, remote, hproxy, rfl⟩

/-- C10 witness: the instance created for "/modem0/netreg" has reference count 0,
and one `ref` followed by one `unref` releases proxy 1 and frees the object. -/
theorem create_ref_count_zero_witness :
    ofono_network_registration_create ⟨true, some 1, some 2⟩ "/modem0/netreg"
      = some { g_try_new0_netreg with
                remote := some 1, path := some "/modem0/netreg", base := some 2 }
    ∧ ({ g_try_new0_netreg with
          remote := some 1, path := some "/modem0/netreg", base := some 2 }
        : ofono_network_registration).ref_count = 0
    ∧ ∃ remote, (some 1 : Option Nat) = some remote
      ∧ ofono_network_registration_unref (ofono_network_registration_ref
          (some { g_try_new0_netreg with
                    remote := some 1, path := some "/modem0/netreg", base := some 2 }))
        = (none, [teardown_step.g_object_unref remote, teardown_step.g_free_netreg]) :=
  ⟨rfl, create_ref_count_zero ⟨true, some 1, some 2⟩ "/modem0/netreg"
    { g_try_new0_netreg with remote := some 1, path := some "/modem0/netreg", base := some 2 }
    rfl⟩

/-- C10 counterexample: the instance created for "/modem0/netreg" has reference
count 0, not 1, and a single `unref` by the creator leaves it alive with count
-1: nothing is released. -/
theorem create_ref_count_not_one :
    ∃ netreg, ofono_network_registration_create ⟨true, some 1, some 2⟩ "/modem0/netreg"
        = some netreg
      ∧ netreg.ref_count = 0
      ∧ netreg.ref_count ≠ 1
      ∧ ofono_network_registration_unref (some netreg)
        = (some { netreg with ref_count := -1 }, []) :=
  ⟨{ g_try_new0_netreg with remote := some 1, path := some "/modem0/netreg", base := some 2 },
    rfl, rfl, by decide, by decide⟩

/-! ### Reference counting -/

/-- A value inside the range of a C `int` is held unchanged. -/
theorem wrap_int_of_range (x : Int) (hlo : -2 ^ 31 ≤ x) (hhi : x < 2 ^ 31) : wrap_int x = x := by
  unfold wrap_int
  omega

/-- The count after `ref`, below the largest `int`. -/
theorem ref_of_range (n : ofono_network_registration)
    (hlo : -2 ^ 31 ≤ n.ref_count) (hhi : n.ref_count < 2 ^ 31 - 1) :
    ofono_network_registration_ref (some n) = some { n with ref_count := n.ref_count + 1 } := by
  simp only [ofono_network_registration_ref]
  rw [wrap_int_of_range _ (by omega) (by omega)]

/-- The outcome of `unref`, above the smallest `int`. -/
theorem unref_of_range (n : ofono_network_registration)
    (hlo : -2 ^ 31 < n.ref_count) (hhi : n.ref_count < 2 ^ 31) :
    ofono_network_registration_unref (some n)
      = if n.ref_count - 1 = 0 then
          (none, ofono_network_registration_free (some n))
        else (some { n with ref_count := n.ref_count - 1 }, []) := by
  simp only [ofono_network_registration_unref]
  rw [wrap_int_of_range _ (by omega) (by omega)]
  by_cases h : n.ref_count - 1 = 0
  · simp [h, ofono_network_registration_free]
  · simp [h]

/-- A count that stays in range is in range at the start. -/
theorem count_in_range_start (c : Int) (ops : List ref_call) (h : count_in_range c ops) :
    c < 2 ^ 31 := by
  have := h 0 (Nat.zero_le _) (fun i hi => absurd hi (Nat.not_lt_zero i))
  simpa using this

/-- After a first `ref` on a count of at least 1, the count is one more, still
in range, and stays in range over the remaining calls. -/
theorem count_in_range_ref (c : Int) (rest : List ref_call) (hc : 1 ≤ c)
    (h : count_in_range c (ref_call.ref :: rest)) :
    c + 1 < 2 ^ 31 ∧ count_in_range (c + 1) rest := by
  constructor
  · have := h 1 (by simp) (fun i hi => by
      have : i = 0 := by omega
      subst this
      simp
      omega)
    simp at this
    omega
  · intro j hj hno
    have := h (j + 1) (by simp; omega) (fun i hi => by
      cases i with
      | zero => simp; omega
      | succ i' =>
        have := hno i' (by omega)
        simp
        omega)
    simp at this
    omega

/-- After a first `unref` that does not tear the object down, the count is one
less and stays in range over the remaining calls. -/
theorem count_in_range_unref (c : Int) (rest : List ref_call) (hc : 1 ≤ c)
    (h : count_in_range c (ref_call.unref :: rest)) :
    count_in_range (c - 1) rest := by
  intro j hj hno
  have := h (j + 1) (by simp; omega) (fun i hi => by
    cases i with
    | zero => simp; omega
    | succ i' =>
      have := hno i' (by omega)
      simp
      omega)
  simp at this
  omega

/-- Where a run of `ref` and `unref` calls tears the object down. For an object
with count `c >= 1` and calls that, up to the teardown, do not take the count
beyond the largest `int`, the object is torn down after `k` calls exactly when
the first `k` calls hold `c` more `unref` than `ref` and no shorter prefix does. -/
theorem teardown_at_iff (ops : List ref_call) :
    ∀ (n : ofono_network_registration) (k : Nat), 1 ≤ n.ref_count →
      count_in_range n.ref_count ops →
      ((∃ steps, teardown_at ops n = some (k, steps)) ↔
        (k ≤ ops.length
          ∧ ((ops.take k).count ref_call.unref : Int)
              = ((ops.take k).count ref_call.ref : Int) + n.ref_count
          ∧ ∀ j < k, ((ops.take j).count ref_call.unref : Int)
              ≠ ((ops.take j).count ref_call.ref : Int) + n.ref_count)) := by
  induction ops with
  | nil =>
    intro n k h1 _
    constructor
    · rintro ⟨steps, h⟩
      simp [teardown_at] at h
    · rintro ⟨_, heq, _⟩
      simp at heq
      omega
  | cons op rest ih =>
    intro n k h1 h2
    have hstart := count_in_range_start _ _ h2
    cases op with
    | ref =>
      obtain ⟨hnext, hrest⟩ := count_in_range_ref _ rest h1 h2
      have hr := ref_of_range n (by omega) (by omega)
      simp only [teardown_at, hr]
      cases k with
      | zero =>
        constructor
        · rintro ⟨steps, h⟩
          simp at h
        · rintro ⟨_, heq, _⟩
          simp at heq
          omega
      | succ k' =>
        have IH := ih { n with ref_count := n.ref_count + 1 } k' (by simp only; omega) hrest
        simp only at IH
        constructor
        · rintro ⟨steps, h⟩
          obtain ⟨r, hr1, hr2⟩ := Option.map_eq_some'.mp h
          simp only [Prod.mk.injEq, add_left_inj] at hr2
          obtain ⟨hk, hs⟩ := hr2
          obtain ⟨hlen, heq, hlt⟩ := IH.mp ⟨r.2, by rw [hr1, ← hk]⟩
          refine ⟨by simp; omega, by simp; omega, ?_⟩
          intro j hj
          cases j with
          | zero => simp; omega
          | succ j' =>
            have := hlt j' (by omega)
            simp
            omega
        · rintro ⟨hlen, heq, hlt⟩
          simp at hlen heq
          obtain ⟨steps, hs⟩ := IH.mpr ⟨by omega, by omega, by
            intro j' hj'
            have := hlt (j' + 1) (by omega)
            simp at this
            omega⟩
          exact ⟨steps, by simp [hs]⟩
    | unref =>
      have hu := unref_of_range n (by omega) (by omega)
      by_cases hc : n.ref_count - 1 = 0
      · rw [if_pos hc] at hu
        simp only [teardown_at, hu]
        constructor
        · rintro ⟨steps, h⟩
          simp only [Option.some.injEq, Prod.mk.injEq] at h
          obtain ⟨hk, _⟩ := h
          subst hk
          refine ⟨by simp, by simp; omega, ?_⟩
          intro j hj
          have : j = 0 := by omega
          subst this
          simp
          omega
        · rintro ⟨hlen, heq, hlt⟩
          cases k with
          | zero =>
            simp at heq
            omega
          | succ k' =>
            cases k' with
            | zero => exact ⟨_, rfl⟩
            | succ k'' =>
              have := hlt 1 (by omega)
              simp at this
              omega
      · rw [if_neg hc] at hu
        have hrest := count_in_range_unref _ rest h1 h2
        simp only [teardown_at, hu]
        cases k with
        | zero =>
          constructor
          · rintro ⟨steps, h⟩
            simp at h
          · rintro ⟨_, heq, _⟩
            simp at heq
            omega
        | succ k' =>
          have IH := ih { n with ref_count := n.ref_count - 1 } k' (by simp only; omega) hrest
          simp only at IH
          constructor
          · rintro ⟨steps, h⟩
            obtain ⟨r, hr1, hr2⟩ := Option.map_eq_some'.mp h
            simp only [Prod.mk.injEq, add_left_inj] at hr2
            obtain ⟨hk, hs⟩ := hr2
            obtain ⟨hlen, heq, hlt⟩ := IH.mp ⟨r.2, by rw [hr1, ← hk]⟩
            refine ⟨by simp; omega, by simp; omega, ?_⟩
            intro j hj
            cases j with
            | zero => simp; omega
            | succ j' =>
              have := hlt j' (by omega)
              simp
              omega
          · rintro ⟨hlen, heq, hlt⟩
            simp at hlen heq
            obtain ⟨steps, hs⟩ := IH.mpr ⟨by omega, by omega, by
              intro j' hj'
              have := hlt (j' + 1) (by omega)
              simp at this
              omega⟩
            exact ⟨steps, by simp [hs]⟩

/-- The releases of a teardown in a run of `ref` and `unref` calls are those of
`ofono_network_registration_free` on the object: the proxy, then the memory. -/
theorem teardown_at_steps (ops : List ref_call) :
    ∀ (n : ofono_network_registration) (k : Nat) (steps : List teardown_step),
      1 ≤ n.ref_count → count_in_range n.ref_count ops →
      teardown_at ops n = some (k, steps) →
      steps = ofono_network_registration_free (some n) := by
  induction ops with
  | nil =>
    intro n k steps _ _ h
    simp [teardown_at] at h
  | cons op rest ih =>
    intro n k steps h1 h2 h
    have hstart := count_in_range_start _ _ h2
    cases op with
    | ref =>
      obtain ⟨hnext, hrest⟩ := count_in_range_ref _ rest h1 h2
      have hr := ref_of_range n (by omega) (by omega)
      simp only [teardown_at, hr] at h
      obtain ⟨r, hr1, hr2⟩ := Option.map_eq_some'.mp h
      simp only [Prod.mk.injEq] at hr2
      have := ih { n with ref_count := n.ref_count + 1 } r.1 r.2 (by simp only; omega) hrest hr1
      rw [← hr2.2, this]
      rfl
    | unref =>
      have hu := unref_of_range n (by omega) (by omega)
      by_cases hc : n.ref_count - 1 = 0
      · rw [if_pos hc] at hu
        simp only [teardown_at, hu, Option.some.injEq, Prod.mk.injEq] at h
        exact h.2.symm
      · rw [if_neg hc] at hu
        have hrest := count_in_range_unref _ rest h1 h2
        simp only [teardown_at, hu] at h
        obtain ⟨r, hr1, hr2⟩ := Option.map_eq_some'.mp h
        simp only [Prod.mk.injEq] at hr2
        have := ih { n with ref_count := n.ref_count - 1 } r.1 r.2 (by simp only; omega) hrest hr1
        rw [← hr2.2, this]
        rfl

/-- C11, as the source has it: reference counting inside the range of the `int`
that holds the count. For an object with count `c`, `ref` yields `c + 1` without
tearing it down when `c` is below the largest `int`, and `unref` yields `c - 1`
and tears the object down (proxy released, memory freed) if and only if `c - 1`
is zero when `c` is above the smallest `int`. Hence for `c >= 1` and a sequence
of `ref` and `unref` calls that, up to the teardown, never takes the count
beyond the largest `int`, the object is torn down after `k` calls exactly when
`k` is the first point where the number of `unref` exceeds the number of `ref`
by `c`. -/
theorem ref_unref_counting (n : ofono_network_registration) (ops : List ref_call) (k : Nat)
    (hrange : -2 ^ 31 ≤ n.ref_count ∧ n.ref_count < 2 ^ 31) :
    (n.ref_count < 2 ^ 31 - 1 →
      ofono_network_registration_ref (some n) = some { n with ref_count := n.ref_count + 1 })
    ∧ (-2 ^ 31 < n.ref_count →
      ofono_network_registration_unref (some n)
        = if n.ref_count - 1 = 0 then
            (none, ofono_network_registration_free (some n))
          else (some { n with ref_count := n.ref_count - 1 }, []))
    ∧ (1 ≤ n.ref_count → count_in_range n.ref_count ops →
        ((∃ steps, teardown_at ops n = some (k, steps)) ↔
          (k ≤ ops.length
            ∧ ((ops.take k).count ref_call.unref : Int)
                = ((ops.take k).count ref_call.ref : Int) + n.ref_count
            ∧ ∀ j < k, ((ops.take j).count ref_call.unref : Int)
                ≠ ((ops.take j).count ref_call.ref : Int) + n.ref_count))
        ∧ ∀ steps, teardown_at ops n = some (k, steps) →
            steps = ofono_network_registration_free (some n)) :=
  ⟨fun h => ref_of_range n hrange.1 h,
   fun h => unref_of_range n h hrange.2,
   fun h1 h2 => ⟨teardown_at_iff ops n k h1 h2,
     fun steps h => teardown_at_steps ops n k steps h1 h2 h⟩⟩

/-- C11 witness: an object with count 1 and proxy 5 that receives `ref`,
`unref`, `unref`, `ref` is torn down by the third call, the first point where
the `unref` calls exceed the `ref` calls by 1, and the teardown releases the
proxy and frees the memory. An object whose count is the largest `int` and that
receives `unref`, `ref` stays in range and is not torn down by the second call. -/
theorem ref_unref_counting_witness :
    (∃ steps,
      teardown_at [ref_call.ref, ref_call.unref, ref_call.unref, ref_call.ref]
          { g_try_new0_netreg with ref_count := 1, remote := some 5 } = some (3, steps)
      ∧ steps = [teardown_step.g_object_unref 5, teardown_step.g_free_netreg])
    ∧ count_in_range 2147483647 [ref_call.unref, ref_call.ref]
    ∧ ¬ ∃ steps, teardown_at [ref_call.unref, ref_call.ref]
          { g_try_new0_netreg with ref_count := 2147483647 } = some (2, steps) := by
  have h := (ref_unref_counting { g_try_new0_netreg with ref_count := 1, remote := some 5 }
    [ref_call.ref, ref_call.unref, ref_call.unref, ref_call.ref] 3
    ⟨by decide, by decide⟩).2.2 (by decide) (by decide)
  have h2 := (ref_unref_counting { g_try_new0_netreg with ref_count := 2147483647 }
    [ref_call.unref, ref_call.ref] 2 ⟨by decide, by decide⟩).2.2 (by decide) (by decide)
  obtain ⟨steps, hs⟩ := h.1.mpr ⟨by decide, by decide, by decide⟩
  refine ⟨⟨steps, hs, h.2 steps hs⟩, by decide, ?_⟩
  rw [h2.1]
  decide

/-- C11 counterexample: on an object whose count is the largest `int`,
2147483647, `ref` yields -2147483648 and not 2147483648; and on an object whose
count is the smallest `int`, `unref` yields 2147483647. -/
theorem ref_count_wraps :
    ofono_network_registration_ref (some { g_try_new0_netreg with ref_count := 2147483647 })
      = some { g_try_new0_netreg with ref_count := -2147483648 }
    ∧ (-2147483648 : Int) ≠ 2147483647 + 1
    ∧ ofono_network_registration_unref
        (some { g_try_new0_netreg with ref_count := -2147483648 })
      = (some { g_try_new0_netreg with ref_count := 2147483647 }, [])
    ∧ (2147483647 : Int) ≠ -2147483648 - 1 := by
  refine ⟨by decide, by decide, by decide, by decide⟩

/-! ### The manager: removal -/

/-- The search of `modem_removed_cb` finds nothing when no entry has the path:
the manager is returned as it is and no call is made. -/
theorem modem_removed_cb_of_absent (path : String) (manager : ofono_manager)
    (habsent : ∀ m ∈ manager.modems, ofono_modem_get_path m ≠ path) :
    modem_removed_cb path manager = (manager, []) := by
  have hfind : manager.modems.find? (fun modem => ofono_modem_get_path modem = path) = none := by
    rw [List.find?_eq_none]
    intro x hx
    simpa using habsent x hx
  simp only [modem_removed_cb, hfind]

/-- The search of `modem_removed_cb` when some entry has the path: the
collection splits around the first such entry, which is the one the search
stops at and the one `g_list_remove` takes out. -/
theorem modem_removed_cb_of_present (path : String) (manager : ofono_manager)
    (hpresent : ∃ m ∈ manager.modems, ofono_modem_get_path m = path) :
    ∃ pre m post, manager.modems = pre ++ m :: post
      ∧ (∀ x ∈ pre, ofono_modem_get_path x ≠ path)
      ∧ ofono_modem_get_path m = path
      ∧ modem_removed_cb path manager
        = ({ manager with modems := pre ++ post },
           [manager_call.modem_unref m]
             ++ notify_modems_changed { manager with modems := pre ++ post }) := by
  cases hfind : manager.modems.find? (fun modem => ofono_modem_get_path modem = path) with
  | none =>
    rw [List.find?_eq_none] at hfind
    obtain ⟨m, hm, hp⟩ := hpresent
    exact absurd hp (by simpa using hfind m hm)
  | some m =>
    obtain ⟨hm, pre, post, hsplit, hpre⟩ := List.find?_eq_some.mp hfind
    have hpre2 : ∀ x ∈ pre, ofono_modem_get_path x ≠ path := by
      intro x hx
      simpa using hpre x hx
    have hm2 : ofono_modem_get_path m = path := by simpa using hm
    have hnot : m ∉ pre := fun h => hpre2 m h hm2
    have herase : manager.modems.erase m = pre ++ post := by
      rw [hsplit, List.erase_append_right _ hnot, List.erase_cons_head]
    refine ⟨pre, m, post, hsplit, hpre2, hm2, ?_⟩
    simp only [modem_removed_cb, hfind, g_list_remove, herase]

/-- C12: a "removed" notification for a path that is the path of no entry leaves
the manager as it is, the collection with the same entries in the same order,
releases no modem reference and fires no modems-changed notification (no call
at all is made); handling it twice equals handling it once. -/
theorem removed_unknown_path_is_noop (path : String) (manager : ofono_manager)
    (habsent : ∀ m ∈ manager.modems, ofono_modem_get_path m ≠ path) :
    modem_removed_cb path manager = (manager, [])
    ∧ (modem_removed_cb path manager).1.modems = manager.modems
    ∧ modem_removed_cb path (modem_removed_cb path manager).1 = modem_removed_cb path manager := by
  have h := modem_removed_cb_of_absent path manager habsent
  refine ⟨h, by rw [h], ?_⟩
  rw [h]
  exact h

/-- C12 witness: a manager holding "/modem0" and "/modem1", with a callback
registered, is left as it is by a "removed" notification for "/modem2". -/
theorem removed_unknown_path_is_noop_witness :
    (∀ m ∈ [ofono_modem.mk 10 "/modem0", ofono_modem.mk 11 "/modem1"],
      ofono_modem_get_path m ≠ "/modem2")
    ∧ modem_removed_cb "/modem2"
        { remote := some 1, modems := [⟨10, "/modem0"⟩, ⟨11, "/modem1"⟩],
          modems_changed_cb := some 7, modems_changed_data := 70,
          modem_added_signal := 3, modem_removed_signal := 4 }
      = ({ remote := some 1, modems := [⟨10, "/modem0"⟩, ⟨11, "/modem1"⟩],
           modems_changed_cb := some 7, modems_changed_data := 70,
           modem_added_signal := 3, modem_removed_signal := 4 }, []) :=
  ⟨by decide,
   (removed_unknown_path_is_noop "/modem2"
      { remote := some 1, modems := [⟨10, "/modem0"⟩, ⟨11, "/modem1"⟩],
        modems_changed_cb := some 7, modems_changed_data := 70,
        modem_added_signal := 3, modem_removed_signal := 4 } (by decide)).1⟩

/-- C13: when at least one entry has path `p`, a "removed" notification for `p`
removes exactly one entry, the first whose path is `p`; the entries before and
after it stay in their order; one reference of that entry is released; and the
modems-changed callback, when one is registered, is called exactly once, with
the collection as it is after the removal. In particular a collection holding
only "/modem0" becomes empty with exactly one callback call. -/
theorem removed_present_path (p : String) (manager : ofono_manager)
    (hpresent : ∃ m ∈ manager.modems, ofono_modem_get_path m = p) :
    (∃ pre m post, manager.modems = pre ++ m :: post
      ∧ (∀ x ∈ pre, ofono_modem_get_path x ≠ p)
      ∧ ofono_modem_get_path m = p
      ∧ (modem_removed_cb p manager).1 = { manager with modems := pre ++ post }
      ∧ (∀ cb, manager.modems_changed_cb = some cb →
          (modem_removed_cb p manager).2
            = [manager_call.modem_unref m,
               manager_call.modems_changed cb manager.modems_changed_data (pre ++ post)])
      ∧ (manager.modems_changed_cb = none →
          (modem_removed_cb p manager).2 = [manager_call.modem_unref m]))
    ∧ (∀ (addr cb : Nat), p = "/modem0" → manager.modems = [ofono_modem.mk addr "/modem0"] →
        manager.modems_changed_cb = some cb →
        (modem_removed_cb p manager).1.modems = []
        ∧ (modem_removed_cb p manager).2
            = [manager_call.modem_unref ⟨addr, "/modem0"⟩,
               manager_call.modems_changed cb manager.modems_changed_data []]) := by
  constructor
  · obtain ⟨pre, m, post, hsplit, hpre, hm, hres⟩ := modem_removed_cb_of_present p manager hpresent
    refine ⟨pre, m, post, hsplit, hpre, hm, by rw [hres], ?_, ?_⟩
    · intro cb hcb
      rw [hres]
      simp [notify_modems_changed, hcb]
    · intro hcb
      rw [hres]
      simp [notify_modems_changed, hcb]
  · intro addr cb hp hmodems hcb
    subst hp
    simp [modem_removed_cb, hmodems, ofono_modem_get_path, g_list_remove,
      notify_modems_changed, hcb]

/-- C13 witness: a manager holding only "/modem0" (at 10), with callback 7 and
argument 70 registered, handles a "removed" notification for "/modem0": the
collection becomes empty, the entry is released once and the callback is called
once. -/
theorem removed_present_path_witness :
    (∃ m ∈ [ofono_modem.mk 10 "/modem0"], ofono_modem_get_path m = "/modem0")
    ∧ (modem_removed_cb "/modem0"
        { remote := some 1, modems := [⟨10, "/modem0"⟩],
          modems_changed_cb := some 7, modems_changed_data := 70,
          modem_added_signal := 3, modem_removed_signal := 4 }).1.modems = []
    ∧ (modem_removed_cb "/modem0"
        { remote := some 1, modems := [⟨10, "/modem0"⟩],
          modems_changed_cb := some 7, modems_changed_data := 70,
          modem_added_signal := 3, modem_removed_signal := 4 }).2
      = [manager_call.modem_unref ⟨10, "/modem0"⟩, manager_call.modems_changed 7 70 []] :=
  ⟨⟨⟨10, "/modem0"⟩, by decide, by decide⟩,
   (removed_present_path "/modem0"
      { remote := some 1, modems := [⟨10, "/modem0"⟩],
        modems_changed_cb := some 7, modems_changed_data := 70,
        modem_added_signal := 3, modem_removed_signal := 4 }
      ⟨⟨10, "/modem0"⟩, by decide, by decide⟩).2 10 7 rfl rfl rfl⟩

/-! ### The manager: addition and uniqueness of paths -/

/-- The manager after an "added" notification: only the collection changes, to
the old collection followed by the new modem. -/
theorem modem_added_cb_modems (addr : Nat) (path : String)
    (properties : List (String × GVariant)) (manager : ofono_manager) :
    (modem_added_cb addr path properties manager).1
      = { manager with modems := manager.modems ++ [ofono_modem_create addr path] } :=
  rfl

/-- The collection after a "removed" notification is a sublist of the one before. -/
theorem modem_removed_cb_sublist (path : String) (manager : ofono_manager) :
    List.Sublist (modem_removed_cb path manager).1.modems manager.modems := by
  unfold modem_removed_cb
  split
  · exact List.erase_sublist _ _
  · exact List.Sublist.refl _

/-- Distinct paths stay distinct when a modem with a new path is added. -/
theorem nodup_paths_added (addr : Nat) (path : String) (properties : List (String × GVariant))
    (manager : ofono_manager) (hnodup : (modem_paths manager.modems).Nodup)
    (hnew : path ∉ modem_paths manager.modems) :
    (modem_paths (modem_added_cb addr path properties manager).1.modems).Nodup := by
  rw [modem_added_cb_modems]
  simp only [modem_paths, List.map_append, List.map_cons, List.map_nil]
  rw [List.nodup_append]
  refine ⟨hnodup, List.nodup_singleton _, ?_⟩
  intro a ha hb
  simp only [List.mem_singleton] at hb
  subst hb
  exact hnew ha

/-- Distinct paths stay distinct when a modem is removed. -/
theorem nodup_paths_removed (path : String) (manager : ofono_manager)
    (hnodup : (modem_paths manager.modems).Nodup) :
    (modem_paths (modem_removed_cb path manager).1.modems).Nodup :=
  List.Nodup.sublist ((modem_removed_cb_sublist path manager).map _) hnodup

/-- C15: path uniqueness is preserved by non-duplicating events. From a
collection with pairwise distinct paths, an "added" notification for a path not
already present, and a "removed" notification for any path, yield a collection
whose paths are again pairwise distinct. -/
theorem path_uniqueness_preserved (manager : ofono_manager)
    (hnodup : (modem_paths manager.modems).Nodup) :
    (∀ (addr : Nat) (path : String) (properties : List (String × GVariant)),
        path ∉ modem_paths manager.modems →
        (modem_paths (modem_added_cb addr path properties manager).1.modems).Nodup)
    ∧ (∀ path : String, (modem_paths (modem_removed_cb path manager).1.modems).Nodup) :=
  ⟨fun addr path properties hnew => nodup_paths_added addr path properties manager hnodup hnew,
   fun path => nodup_paths_removed path manager hnodup⟩

/-- C15 witness: from the collection "/modem0", "/modem1", adding "/modem2" and
removing "/modem0" both leave pairwise distinct paths. -/
theorem path_uniqueness_preserved_witness :
    (modem_paths [ofono_modem.mk 10 "/modem0", ofono_modem.mk 11 "/modem1"]).Nodup
    ∧ "/modem2" ∉ modem_paths [ofono_modem.mk 10 "/modem0", ofono_modem.mk 11 "/modem1"]
    ∧ (modem_paths (modem_added_cb 12 "/modem2" []
        { remote := some 1, modems := [⟨10, "/modem0"⟩, ⟨11, "/modem1"⟩],
          modems_changed_cb := none, modems_changed_data := 0,
          modem_added_signal := 3, modem_removed_signal := 4 }).1.modems).Nodup
    ∧ (modem_paths (modem_removed_cb "/modem0"
        { remote := some 1, modems := [⟨10, "/modem0"⟩, ⟨11, "/modem1"⟩],
          modems_changed_cb := none, modems_changed_data := 0,
          modem_added_signal := 3, modem_removed_signal := 4 }).1.modems).Nodup :=
  have h := path_uniqueness_preserved
    { remote := some 1, modems := [⟨10, "/modem0"⟩, ⟨11, "/modem1"⟩],
      modems_changed_cb := none, modems_changed_data := 0,
      modem_added_signal := 3, modem_removed_signal := 4 } (by decide)
  ⟨by decide, by decide, h.1 12 "/modem2" [] (by decide), h.2 "/modem0"⟩

/-- C16: an "added" notification for `p`, whether or not an entry with path `p`
is present, yields the previous collection with exactly one new entry of path
`p` appended at the end: the length grows by one and the earlier entries are
unchanged and in the same order. One reference is taken on the new modem, and
the modems-changed callback, when one is registered, is called exactly once,
with the collection as it is after the addition. -/
theorem added_appends_one_entry (addr : Nat) (p : String)
    (properties : List (String × GVariant)) (manager : ofono_manager) :
    (modem_added_cb addr p properties manager).1
      = { manager with modems := manager.modems ++ [ofono_modem_create addr p] }
    ∧ ofono_modem_get_path (ofono_modem_create addr p) = p
    ∧ (modem_added_cb addr p properties manager).1.modems.length = manager.modems.length + 1
    ∧ (modem_added_cb addr p properties manager).1.modems.take manager.modems.length
        = manager.modems
    ∧ (∀ cb, manager.modems_changed_cb = some cb →
        (modem_added_cb addr p properties manager).2
          = [manager_call.modem_create (ofono_modem_create addr p),
             manager_call.modem_ref (ofono_modem_create addr p),
             manager_call.modems_changed cb manager.modems_changed_data
               (manager.modems ++ [ofono_modem_create addr p])])
    ∧ (manager.modems_changed_cb = none →
        (modem_added_cb addr p properties manager).2
          = [manager_call.modem_create (ofono_modem_create addr p),
             manager_call.modem_ref (ofono_modem_create addr p)]) := by
  refine ⟨rfl, rfl, ?_, ?_, ?_, ?_⟩
  · rw [modem_added_cb_modems]
    simp
  · rw [modem_added_cb_modems]
    simp
  · intro cb hcb
    simp [modem_added_cb, notify_modems_changed, hcb, g_list_append]
  · intro hcb
    simp [modem_added_cb, notify_modems_changed, hcb]

/-- C16 witness: a manager that already holds "/modem0" (at 10), with callback 7
registered, handles an "added" notification for "/modem0" again: a second entry
(at 11) is appended and the callback is called once. -/
theorem added_appends_one_entry_witness :
    (modem_added_cb 11 "/modem0" []
        { remote := some 1, modems := [⟨10, "/modem0"⟩],
          modems_changed_cb := some 7, modems_changed_data := 70,
          modem_added_signal := 3, modem_removed_signal := 4 }).2
      = [manager_call.modem_create ⟨11, "/modem0"⟩, manager_call.modem_ref ⟨11, "/modem0"⟩,
         manager_call.modems_changed 7 70 [⟨10, "/modem0"⟩, ⟨11, "/modem0"⟩]] :=
  (added_appends_one_entry 11 "/modem0" []
    { remote := some 1, modems := [⟨10, "/modem0"⟩],
      modems_changed_cb := some 7, modems_changed_data := 70,
      modem_added_signal := 3, modem_removed_signal := 4 }).2.2.2.2.1 7 rfl

/-! ### The manager: enumeration completion -/

/-- The loop of `get_modems_cb`: it appends one modem per child, created for the
path of the child, in the order of the children, changes nothing else in the
manager, and makes no call but the creations. -/
theorem get_modems_loop_spec (env : completion_env)
    (children : List (String × List (String × GVariant))) :
    ∀ (n : Nat) (manager : ofono_manager),
      ∃ created, (get_modems_loop env n children manager).1
          = { manager with modems := manager.modems ++ created }
        ∧ modem_paths created = children.map Prod.fst
        ∧ (get_modems_loop env n children manager).2
          = created.map manager_call.modem_create := by
  induction children with
  | nil =>
    intro n manager
    exact ⟨[], by simp [get_modems_loop], rfl, rfl⟩
  | cons child rest ih =>
    intro n manager
    obtain ⟨created, h1, h2, h3⟩ := ih (n + 1)
      { manager with
        modems := g_list_append manager.modems (ofono_modem_create (env.modem_addr n) child.1) }
    refine ⟨ofono_modem_create (env.modem_addr n) child.1 :: created, ?_, ?_, ?_⟩
    · simp only [get_modems_loop]
      rw [h1]
      simp [g_list_append]
    · simp only [modem_paths, List.map_cons] at h2 ⊢
      rw [h2]
      rfl
    · simp only [get_modems_loop, h3, List.map_cons]

/-- Successful enumeration completion: the created modems are appended, the
callback is notified, then both signals are connected; the connections and the
notification see the collection with the whole batch in it. -/
theorem get_modems_cb_success (env : completion_env)
    (children : List (String × List (String × GVariant))) (manager : ofono_manager) :
    ∃ created, modem_paths created = children.map Prod.fst
      ∧ (get_modems_cb env (some children) manager).1
        = { manager with modems := manager.modems ++ created,
                         modem_added_signal := env.added_id,
                         modem_removed_signal := env.removed_id }
      ∧ (get_modems_cb env (some children) manager).2
        = created.map manager_call.modem_create
          ++ (match manager.modems_changed_cb with
              | some cb => [manager_call.modems_changed cb manager.modems_changed_data
                              (manager.modems ++ created)]
              | none => [])
          ++ [manager_call.signal_connect "modem-added" signal_callback.modem_added_cb
                (manager.modems ++ created),
              manager_call.signal_connect "modem-removed" signal_callback.modem_removed_cb
                (manager.modems ++ created)] := by
  obtain ⟨created, h1, h2, h3⟩ := get_modems_loop_spec env children 0 manager
  refine ⟨created, h2, ?_, ?_⟩
  · simp only [get_modems_cb, h1]
  · simp only [get_modems_cb, h1, h3, notify_modems_changed]

/-- Failed enumeration completion: the collection is left as it is, nothing is
notified, and both signals are connected. -/
theorem get_modems_cb_failure (env : completion_env) (manager : ofono_manager) :
    get_modems_cb env none manager
      = ({ manager with modem_added_signal := env.added_id,
                        modem_removed_signal := env.removed_id },
         [manager_call.signal_connect "modem-added" signal_callback.modem_added_cb
            manager.modems,
          manager_call.signal_connect "modem-removed" signal_callback.modem_removed_cb
            manager.modems]) :=
  rfl

/-- A manager that `ofono_manager_create` returns: the record and the one call made. -/
theorem ofono_manager_create_some (alloc : Bool) (proxy : Option Nat) (manager : ofono_manager)
    (calls : List manager_call)
    (hcreate : ofono_manager_create alloc proxy = (some manager, calls)) :
    ∃ remote, proxy = some remote
      ∧ manager = { remote := some remote, modems := [], modems_changed_cb := none,
                    modems_changed_data := 0, modem_added_signal := 0,
                    modem_removed_signal := 0 }
      ∧ calls = [manager_call.call_get_modems remote] := by
  unfold ofono_manager_create at hcreate
  split at hcreate
  · simp at hcreate
  · split at hcreate
    · simp at hcreate
    · rename_i remote
      simp only [Prod.mk.injEq, Option.some.injEq] at hcreate
      exact ⟨remote, rfl, hcreate.1.symm, hcreate.2.symm⟩

/-- C17: successful enumeration completion on a freshly created manager yields a
collection of exactly as many entries as the result lists, whose paths are the
listed paths in the returned order, and `ofono_manager_get_modems` returns that
collection. In particular the result [("/modem0", {})] yields a collection with
the single entry of path "/modem0". -/
theorem enumeration_fills_collection (alloc : Bool) (proxy : Option Nat)
    (manager : ofono_manager) (calls : List manager_call) (env : completion_env)
    (children : List (String × List (String × GVariant)))
    (hcreate : ofono_manager_create alloc proxy = (some manager, calls)) :
    modem_paths (get_modems_cb env (some children) manager).1.modems = children.map Prod.fst
    ∧ (get_modems_cb env (some children) manager).1.modems.length = children.length
    ∧ ofono_manager_get_modems (some (get_modems_cb env (some children) manager).1)
        = (get_modems_cb env (some children) manager).1.modems
    ∧ (children = [("/modem0", [])] →
        ofono_manager_get_modems (some (get_modems_cb env (some children) manager).1)
          = [ofono_modem_create (env.modem_addr 0) "/modem0"]) := by
  obtain ⟨remote, _, hm, _⟩ := ofono_manager_create_some alloc proxy manager calls hcreate
  obtain ⟨created, hpaths, hres, _⟩ := get_modems_cb_success env children manager
  have hmodems : (get_modems_cb env (some children) manager).1.modems = created := by
    rw [hres, hm]
    rfl
  refine ⟨by rw [hmodems, hpaths], ?_, rfl, ?_⟩
  · rw [hmodems]
    have := congrArg List.length hpaths
    simpa [modem_paths] using this
  · intro hchildren
    subst hchildren
    subst hm
    rfl

/-- C17 witness: a manager created with proxy 1 receives the enumeration result
"/modem0", "/modem1"; its collection then lists these two paths in this order. -/
theorem enumeration_fills_collection_witness :
    ofono_manager_create true (some 1)
      = (some { remote := some 1, modems := [], modems_changed_cb := none,
                modems_changed_data := 0, modem_added_signal := 0, modem_removed_signal := 0 },
         [manager_call.call_get_modems 1])
    ∧ modem_paths (get_modems_cb ⟨fun n => 100 + n, 3, 4⟩
        (some [("/modem0", []), ("/modem1", [])])
        { remote := some 1, modems := [], modems_changed_cb := none,
          modems_changed_data := 0, modem_added_signal := 0,
          modem_removed_signal := 0 }).1.modems
      = ["/modem0", "/modem1"] :=
  ⟨rfl, (enumeration_fills_collection true (some 1)
    { remote := some 1, modems := [], modems_changed_cb := none,
      modems_changed_data := 0, modem_added_signal := 0, modem_removed_signal := 0 }
    [manager_call.call_get_modems 1] ⟨fun n => 100 + n, 3, 4⟩
    [("/modem0", []), ("/modem1", [])] rfl).1⟩

/-- C18: the manager is subscribed to the "added" and "removed" streams exactly
from enumeration completion on. A freshly created manager has connected
neither signal (both handler ids are 0 and `create` makes no connection).
Enumeration completion, successful or failed, connects both, "modem-added" to
`modem_added_cb` and "modem-removed" to `modem_removed_cb`, as its last two
calls, made when the whole batch is in the collection, and stores the ids. On
failure the collection is left as it is, empty for a fresh manager. The
"added" and "removed" handlers connect nothing and leave the ids as they are. -/
theorem subscription_from_enumeration_completion (env : completion_env)
    (result : Option (List (String × List (String × GVariant)))) (manager : ofono_manager) :
    (∀ (alloc : Bool) (proxy : Option Nat) (fresh : ofono_manager) (calls : List manager_call),
        ofono_manager_create alloc proxy = (some fresh, calls) →
        fresh.modem_added_signal = 0 ∧ fresh.modem_removed_signal = 0 ∧ fresh.modems = []
        ∧ calls.filter is_signal_connect = []
        ∧ (get_modems_cb env none fresh).1.modems = [])
    ∧ (∃ created before,
        (get_modems_cb env result manager).1.modems = manager.modems ++ created
        ∧ (result = none → created = [])
        ∧ (∀ children, result = some children → modem_paths created = children.map Prod.fst)
        ∧ (get_modems_cb env result manager).2
            = before
              ++ [manager_call.signal_connect "modem-added" signal_callback.modem_added_cb
                    (manager.modems ++ created),
                  manager_call.signal_connect "modem-removed" signal_callback.modem_removed_cb
                    (manager.modems ++ created)]
        ∧ before.filter is_signal_connect = []
        ∧ (get_modems_cb env result manager).1.modem_added_signal = env.added_id
        ∧ (get_modems_cb env result manager).1.modem_removed_signal = env.removed_id)
    ∧ (∀ (addr : Nat) (path : String) (properties : List (String × GVariant)),
        (modem_added_cb addr path properties manager).1.modem_added_signal
          = manager.modem_added_signal
        ∧ (modem_added_cb addr path properties manager).1.modem_removed_signal
          = manager.modem_removed_signal
        ∧ (modem_added_cb addr path properties manager).2.filter is_signal_connect = [])
    ∧ (∀ path : String,
        (modem_removed_cb path manager).1.modem_added_signal = manager.modem_added_signal
        ∧ (modem_removed_cb path manager).1.modem_removed_signal
          = manager.modem_removed_signal
        ∧ (modem_removed_cb path manager).2.filter is_signal_connect = []) := by
  refine ⟨?_, ?_, ?_, ?_⟩
  · intro alloc proxy fresh calls hcreate
    obtain ⟨remote, _, hm, hcalls⟩ := ofono_manager_create_some alloc proxy fresh calls hcreate
    subst hm hcalls
    exact ⟨rfl, rfl, rfl, rfl, rfl⟩
  · cases result with
    | none =>
      refine ⟨[], [], ?_, fun _ => rfl, ?_, ?_, rfl, rfl, rfl⟩
      · rw [get_modems_cb_failure]
        simp
      · intro children h
        cases h
      · rw [get_modems_cb_failure]
        simp
    | some children =>
      obtain ⟨created, hpaths, hres, hcalls⟩ := get_modems_cb_success env children manager
      refine ⟨created,
        created.map manager_call.modem_create
          ++ (match manager.modems_changed_cb with
              | some cb => [manager_call.modems_changed cb manager.modems_changed_data
                              (manager.modems ++ created)]
              | none => []),
        by rw [hres], ?_, ?_, hcalls, ?_, by rw [hres], by rw [hres]⟩
      · intro h
        cases h
      · intro children2 h
        cases h
        exact hpaths
      · rw [List.filter_append]
        have h1 : (created.map manager_call.modem_create).filter is_signal_connect = [] := by
          rw [List.filter_eq_nil_iff]
          intro c hc
          obtain ⟨m, _, rfl⟩ := List.mem_map.mp hc
          simp [is_signal_connect]
        rw [h1]
        cases manager.modems_changed_cb <;> simp [is_signal_connect]
  · intro addr path properties
    refine ⟨rfl, rfl, ?_⟩
    simp only [modem_added_cb, notify_modems_changed]
    cases manager.modems_changed_cb <;> simp [is_signal_connect]
  · intro path
    unfold modem_removed_cb
    split
    · refine ⟨rfl, rfl, ?_⟩
      simp only [notify_modems_changed]
      cases manager.modems_changed_cb <;> simp [is_signal_connect]
    · exact ⟨rfl, rfl, rfl⟩

/-- C18 witness: a manager created with proxy 1 has handler ids 0 and has made no
connection; after a failed enumeration completion that returns the ids 3 and 4
its collection is empty and its handler ids are 3 and 4. -/
theorem subscription_from_enumeration_completion_witness :
    ofono_manager_create true (some 1)
      = (some { remote := some 1, modems := [], modems_changed_cb := none,
                modems_changed_data := 0, modem_added_signal := 0, modem_removed_signal := 0 },
         [manager_call.call_get_modems 1])
    ∧ (get_modems_cb ⟨fun n => 100 + n, 3, 4⟩ none
        { remote := some 1, modems := [], modems_changed_cb := none,
          modems_changed_data := 0, modem_added_signal := 0,
          modem_removed_signal := 0 }).1.modems = []
    ∧ (get_modems_cb ⟨fun n => 100 + n, 3, 4⟩ none
        { remote := some 1, modems := [], modems_changed_cb := none,
          modems_changed_data := 0, modem_added_signal := 0,
          modem_removed_signal := 0 }).1.modem_added_signal = 3
    ∧ (get_modems_cb ⟨fun n => 100 + n, 3, 4⟩ none
        { remote := some 1, modems := [], modems_changed_cb := none,
          modems_changed_data := 0, modem_added_signal := 0,
          modem_removed_signal := 0 }).1.modem_removed_signal = 4 := by
  have h := subscription_from_enumeration_completion ⟨fun n => 100 + n, 3, 4⟩ none
    { remote := some 1, modems := [], modems_changed_cb := none,
      modems_changed_data := 0, modem_added_signal := 0, modem_removed_signal := 0 }
  obtain ⟨created, before, _, _, _, _, _, hadded, hremoved⟩ := h.2.1
  exact ⟨rfl, (h.1 true (some 1) _ _ rfl).2.2.2.2, hadded, hremoved⟩

/-- The creations of the enumeration loop contain no callback call. -/
theorem filter_modems_changed_creations (created : List ofono_modem) :
    (created.map manager_call.modem_create).filter is_modems_changed = [] := by
  rw [List.filter_eq_nil_iff]
  intro c hc
  obtain ⟨m, _, rfl⟩ := List.mem_map.mp hc
  simp [is_modems_changed]

/-- C19: enumeration completion and the modems-changed notification. With a
callback registered, successful enumeration completion calls it exactly once,
with the registered argument, when all returned modems are in the collection
(also when the result is empty), and failed enumeration completion does not
call it. With no callback registered, enumeration completion and every "added"
and "removed" notification call nothing. -/
theorem enumeration_notification (env : completion_env) (manager0 manager : ofono_manager)
    (cb : Nat) (data : gpointer) :
    (ofono_manager_set_modems_changed_callback (some manager0) (some cb) data = some manager →
      (∀ children : List (String × List (String × GVariant)),
        ∃ created, modem_paths created = children.map Prod.fst
          ∧ (get_modems_cb env (some children) manager).1.modems = manager.modems ++ created
          ∧ (get_modems_cb env (some children) manager).2.filter is_modems_changed
            = [manager_call.modems_changed cb data (manager.modems ++ created)])
      ∧ (get_modems_cb env (some []) manager).2.filter is_modems_changed
          = [manager_call.modems_changed cb data manager.modems]
      ∧ (get_modems_cb env none manager).2.filter is_modems_changed = [])
    ∧ (manager.modems_changed_cb = none →
      ∀ event : manager_event, (handle_event event manager).2.filter is_modems_changed = []) := by
  constructor
  · intro hset
    simp only [ofono_manager_set_modems_changed_callback, Option.some.injEq] at hset
    have hcb : manager.modems_changed_cb = some cb := by rw [← hset]
    have hdata : manager.modems_changed_data = data := by rw [← hset]
    have hsuccess : ∀ children : List (String × List (String × GVariant)),
        ∃ created, modem_paths created = children.map Prod.fst
          ∧ (get_modems_cb env (some children) manager).1.modems = manager.modems ++ created
          ∧ (get_modems_cb env (some children) manager).2.filter is_modems_changed
            = [manager_call.modems_changed cb data (manager.modems ++ created)] := by
      intro children
      obtain ⟨created, hpaths, hres, hcalls⟩ := get_modems_cb_success env children manager
      refine ⟨created, hpaths, by rw [hres], ?_⟩
      rw [hcalls, hcb, hdata]
      simp only [List.filter_append, filter_modems_changed_creations]
      simp [is_modems_changed]
    refine ⟨hsuccess, ?_, ?_⟩
    · obtain ⟨created, hpaths, _, hcalls⟩ := hsuccess []
      have hnil : created = [] := by simpa [modem_paths] using hpaths
      subst hnil
      simpa using hcalls
    · rw [get_modems_cb_failure]
      simp [is_modems_changed]
  · intro hnone event
    cases event with
    | enumeration_completed env2 result =>
      cases result with
      | none =>
        simp only [handle_event]
        rw [get_modems_cb_failure]
        simp [is_modems_changed]
      | some children =>
        obtain ⟨created, _, _, hcalls⟩ := get_modems_cb_success env2 children manager
        simp only [handle_event]
        rw [hcalls, hnone]
        simp only [List.filter_append, filter_modems_changed_creations]
        simp [is_modems_changed]
    | added addr path properties =>
      simp [handle_event, modem_added_cb, notify_modems_changed, hnone, is_modems_changed]
    | removed path =>
      simp only [handle_event]
      unfold modem_removed_cb
      split
      · simp [notify_modems_changed, hnone, is_modems_changed]
      · rfl

/-- C19 witness: a fresh manager on which callback 7 with argument 70 is
registered receives the enumeration result "/modem0": the callback is called
once, with the one-entry collection; the same manager without a callback calls
nothing when "/modem0" is added. -/
theorem enumeration_notification_witness :
    ofono_manager_set_modems_changed_callback
        (some { remote := some 1, modems := [], modems_changed_cb := none,
                modems_changed_data := 0, modem_added_signal := 0, modem_removed_signal := 0 })
        (some 7) 70
      = some { remote := some 1, modems := [], modems_changed_cb := some 7,
               modems_changed_data := 70, modem_added_signal := 0, modem_removed_signal := 0 }
    ∧ (∃ created, modem_paths created = ["/modem0"]
        ∧ (get_modems_cb ⟨fun n => 100 + n, 3, 4⟩ (some [("/modem0", [])])
            { remote := some 1, modems := [], modems_changed_cb := some 7,
              modems_changed_data := 70, modem_added_signal := 0,
              modem_removed_signal := 0 }).2.filter is_modems_changed
          = [manager_call.modems_changed 7 70 ([] ++ created)])
    ∧ (handle_event (manager_event.added 100 "/modem0" [])
        { remote := some 1, modems := [], modems_changed_cb := none,
          modems_changed_data := 0, modem_added_signal := 0,
          modem_removed_signal := 0 }).2.filter is_modems_changed = [] := by
  have h1 := (enumeration_notification ⟨fun n => 100 + n, 3, 4⟩
    { remote := some 1, modems := [], modems_changed_cb := none,
      modems_changed_data := 0, modem_added_signal := 0, modem_removed_signal := 0 }
    { remote := some 1, modems := [], modems_changed_cb := some 7,
      modems_changed_data := 70, modem_added_signal := 0, modem_removed_signal := 0 }
    7 70).1 rfl
  have h2 := (enumeration_notification ⟨fun n => 100 + n, 3, 4⟩
    { remote := some 1, modems := [], modems_changed_cb := none,
      modems_changed_data := 0, modem_added_signal := 0, modem_removed_signal := 0 }
    { remote := some 1, modems := [], modems_changed_cb := none,
      modems_changed_data := 0, modem_added_signal := 0, modem_removed_signal := 0 }
    7 70).2 rfl
  obtain ⟨created, hp, _, hc⟩ := h1.1 [("/modem0", [])]
  exact ⟨rfl, ⟨created, hp, hc⟩, h2 (manager_event.added 100 "/modem0" [])⟩

/-! ### The manager: reachable states -/

/-- One event that adds no duplicate keeps the paths of the collection pairwise
distinct. -/
theorem handle_event_nodup (event : manager_event) (manager : ofono_manager)
    (hnodup : (modem_paths manager.modems).Nodup) (hevent : adds_no_duplicate event manager) :
    (modem_paths (handle_event event manager).1.modems).Nodup := by
  cases event with
  | enumeration_completed env result =>
    cases result with
    | none =>
      simp only [handle_event]
      rw [get_modems_cb_failure]
      exact hnodup
    | some children =>
      obtain ⟨created, hpaths, hres, _⟩ := get_modems_cb_success env children manager
      simp only [adds_no_duplicate] at hevent
      simp only [handle_event]
      rw [hres]
      simp only [modem_paths, List.map_append] at hpaths hnodup hevent ⊢
      rw [hpaths, List.nodup_append]
      exact ⟨hnodup, hevent.1, fun a ha hb => hevent.2 a hb ha⟩
  | added addr path properties =>
    exact nodup_paths_added addr path properties manager hnodup hevent
  | removed path =>
    exact nodup_paths_removed path manager hnodup

/-- A run of events each of which adds no duplicate keeps the paths of the
collection pairwise distinct. -/
theorem handle_events_nodup (events : List manager_event) :
    ∀ manager : ofono_manager, (modem_paths manager.modems).Nodup →
      non_duplicating events manager →
      (modem_paths (handle_events events manager).1.modems).Nodup := by
  induction events with
  | nil =>
    intro manager hnodup _
    exact hnodup
  | cons event rest ih =>
    intro manager hnodup hevents
    simp only [non_duplicating] at hevents
    simp only [handle_events]
    exact ih _ (handle_event_nodup event manager hnodup hevents.1) hevents.2

/-- C14, as the source has it: the manager checks no path against its collection
before appending, so uniqueness holds for the runs that bring no path twice. In
every state reachable from a freshly created manager by a sequence of events in
which every enumeration completion lists pairwise distinct paths none of which
is present, and every "added" notification is for a path that is not present
("removed" notifications and failed enumerations being arbitrary), the
collection contains no two entries with the same path. -/
theorem reachable_paths_distinct (alloc : Bool) (proxy : Option Nat) (fresh : ofono_manager)
    (calls : List manager_call) (events : List manager_event)
    (hcreate : ofono_manager_create alloc proxy = (some fresh, calls))
    (hevents : non_duplicating events fresh) :
    (modem_paths (handle_events events fresh).1.modems).Nodup := by
  obtain ⟨remote, _, hm, _⟩ := ofono_manager_create_some alloc proxy fresh calls hcreate
  refine handle_events_nodup events fresh ?_ hevents
  rw [hm]
  exact List.nodup_nil

/-- C14 witness: from a manager created with proxy 1, the enumeration result
"/modem0", then "added" for "/modem1", "removed" for "/modem0" and "added" for
"/modem0" is a run that brings no path twice; the collection it ends in has
pairwise distinct paths. -/
theorem reachable_paths_distinct_witness :
    non_duplicating
        [manager_event.enumeration_completed ⟨fun n => 100 + n, 3, 4⟩ (some [("/modem0", [])]),
         manager_event.added 200 "/modem1" [], manager_event.removed "/modem0",
         manager_event.added 201 "/modem0" []]
        { remote := some 1, modems := [], modems_changed_cb := none,
          modems_changed_data := 0, modem_added_signal := 0, modem_removed_signal := 0 }
    ∧ (modem_paths (handle_events
        [manager_event.enumeration_completed ⟨fun n => 100 + n, 3, 4⟩ (some [("/modem0", [])]),
         manager_event.added 200 "/modem1" [], manager_event.removed "/modem0",
         manager_event.added 201 "/modem0" []]
        { remote := some 1, modems := [], modems_changed_cb := none,
          modems_changed_data := 0, modem_added_signal := 0,
          modem_removed_signal := 0 }).1.modems).Nodup :=
  have hevents : non_duplicating
      [manager_event.enumeration_completed ⟨fun n => 100 + n, 3, 4⟩ (some [("/modem0", [])]),
       manager_event.added 200 "/modem1" [], manager_event.removed "/modem0",
       manager_event.added 201 "/modem0" []]
      { remote := some 1, modems := [], modems_changed_cb := none,
        modems_changed_data := 0, modem_added_signal := 0, modem_removed_signal := 0 } :=
    by decide
  ⟨hevents, reachable_paths_distinct true (some 1) _ [manager_call.call_get_modems 1] _ rfl hevents⟩

/-- C14 counterexample: from a manager created with proxy 1, the enumeration
result "/modem0" followed by an "added" notification for "/modem0" is handled
into a collection with two entries of path "/modem0". -/
theorem duplicate_paths_reachable :
    ofono_manager_create true (some 1)
      = (some { remote := some 1, modems := [], modems_changed_cb := none,
                modems_changed_data := 0, modem_added_signal := 0, modem_removed_signal := 0 },
         [manager_call.call_get_modems 1])
    ∧ (handle_events
        [manager_event.enumeration_completed ⟨fun n => 100 + n, 3, 4⟩ (some [("/modem0", [])]),
         manager_event.added 200 "/modem0" []]
        { remote := some 1, modems := [], modems_changed_cb := none,
          modems_changed_data := 0, modem_added_signal := 0,
          modem_removed_signal := 0 }).1.modems
      = [⟨100, "/modem0"⟩, ⟨200, "/modem0"⟩]
    ∧ ¬ (modem_paths [ofono_modem.mk 100 "/modem0", ofono_modem.mk 200 "/modem0"]).Nodup :=
  ⟨rfl, by decide, by decide⟩

/-- C20, evaluated on the source: the two discovery paths do not account alike.
For every path `p`, a modem that entered the collection through enumeration and
was removed again by a "removed" notification for `p` has had no reference
taken and one released by the manager, a net of -1; a modem that entered through
an "added" notification has had one taken and one released, a net of 0. In both
runs the collection is empty again at the end. -/
theorem reference_accounting_differs (env : completion_env) (remote addr : Nat) (p : String) :
    net_references (ofono_modem_create (env.modem_addr 0) p)
        (handle_events
          [manager_event.enumeration_completed env (some [(p, [])]), manager_event.removed p]
          { remote := some remote, modems := [], modems_changed_cb := none,
            modems_changed_data := 0, modem_added_signal := 0, modem_removed_signal := 0 }).2
      = -1
    ∧ net_references (ofono_modem_create addr p)
        (handle_events
          [manager_event.enumeration_completed env (some []), manager_event.added addr p [],
           manager_event.removed p]
          { remote := some remote, modems := [], modems_changed_cb := none,
            modems_changed_data := 0, modem_added_signal := 0, modem_removed_signal := 0 }).2
      = 0
    ∧ (handle_events
          [manager_event.enumeration_completed env (some [(p, [])]), manager_event.removed p]
          { remote := some remote, modems := [], modems_changed_cb := none,
            modems_changed_data := 0, modem_added_signal := 0,
            modem_removed_signal := 0 }).1.modems = []
    ∧ (handle_events
          [manager_event.enumeration_completed env (some []), manager_event.added addr p [],
           manager_event.removed p]
          { remote := some remote, modems := [], modems_changed_cb := none,
            modems_changed_data := 0, modem_added_signal := 0,
            modem_removed_signal := 0 }).1.modems = [] := by
  refine ⟨?_, ?_, ?_, ?_⟩ <;>
    simp [net_references, handle_events, handle_event, get_modems_cb, get_modems_loop,
      modem_added_cb, modem_removed_cb, notify_modems_changed, g_list_append, g_list_remove,
      ofono_modem_create, ofono_modem_get_path, List.count_cons]


end Ofono
